import Mathlib

/-!
Verification of the pf task-runner execution engine.

This file gives a shallow embedding, in Lean 4, of the core of the pf
task-runner: the shell command parser and secure executor (pf_shell.py),
the polyglot builder (pf_polyglot.py) and the parallel task aggregation
(pf_task_executor.py).  Python strings are modelled as Lean `String`
(lists of characters), Python dicts keyed by strings as insertion-ordered
association lists, the filesystem as a partial map from paths to file
contents, and process execution as oracles giving each spawned command an
exit code.  Fallible operations return `Except PfError` or `Option`.
-/

set_option maxHeartbeats 2000000
set_option maxRecDepth 10000

deriving instance DecidableEq for Except

namespace PfRunner

/-- Typed errors of the runner: PFSyntaxError carries a message, an optional
file path and an optional suggestion; PFExecutionError carries a message and
an optional suggestion. -/
inductive PfError where
  | synErr (message : String) (filePath : Option String) (suggestion : Option String)
  | execErr (message : String) (suggestion : Option String)
  deriving DecidableEq, Repr

/-! ### Character-list utilities -/

/-- Boolean test that `pre` is a (contiguous, initial) prefix of `l`. -/
def isPrefixCh : List Char → List Char → Bool
  | [], _ => true
  | _ :: _, [] => false
  | a :: as, b :: bs => a == b && isPrefixCh as bs

/-- Boolean test that `needle` occurs contiguously inside `hay`
(Python's `needle in hay` on strings). -/
def subListCh (needle : List Char) : List Char → Bool
  | [] => needle.isEmpty
  | h :: t => isPrefixCh needle (h :: t) || subListCh needle t

/-- Python `sub in s` for strings. -/
def containsSub (s sub : String) : Bool := subListCh sub.data s.data

/-- Python `s[n:]` (character based). -/
def strDrop (s : String) (n : Nat) : String := String.mk (s.data.drop n)

/-! ### Python shlex model

`shlexSplit` models Python `shlex.split` in POSIX mode with
`whitespace_split=True` (the configuration used by `shlex.split`):
whitespace separates tokens, single quotes are literal until the closing
quote, double quotes allow `\"` and `\\` escapes, a backslash outside
quotes escapes any single character, and an unclosed quote or a trailing
backslash is an error (Python raises `ValueError`; here: `none`).
`shlexQuote` models Python `shlex.quote`. -/

/-- The whitespace characters of Python's shlex (` \t\r\n`). -/
def isShlexWhitespace (c : Char) : Bool :=
  c == ' ' || c == '\t' || c == '\r' || c == '\n'

/-- Lexer state of the shlex model: outside quotes, in single quotes,
in double quotes. -/
inductive ShMode where
  | norm | single | double
  deriving DecidableEq

/-- One fuelled step machine for shlex splitting.  Fuel decreases by one per
step and each step consumes at least one input character, so
`input.length + 1` fuel always suffices. -/
def shlexSplitAux (fuel : Nat) (mode : ShMode) (input : List Char)
    (cur : List Char) (started : Bool) (acc : List String) : Option (List String) :=
  match fuel with
  | 0 => none
  | fuel + 1 =>
    match mode, input with
    | .norm, [] => some (if started then acc ++ [String.mk cur] else acc)
    | .norm, c :: rest =>
        if isShlexWhitespace c then
          if started then shlexSplitAux fuel .norm rest [] false (acc ++ [String.mk cur])
          else shlexSplitAux fuel .norm rest [] false acc
        else if c = '\'' then shlexSplitAux fuel .single rest cur true acc
        else if c = '"' then shlexSplitAux fuel .double rest cur true acc
        else if c = '\\' then
          match rest with
          | [] => none
          | d :: rest2 => shlexSplitAux fuel .norm rest2 (cur ++ [d]) true acc
        else shlexSplitAux fuel .norm rest (cur ++ [c]) true acc
    | .single, [] => none
    | .single, c :: rest =>
        if c = '\'' then shlexSplitAux fuel .norm rest cur true acc
        else shlexSplitAux fuel .single rest (cur ++ [c]) true acc
    | .double, [] => none
    | .double, c :: rest =>
        if c = '"' then shlexSplitAux fuel .norm rest cur true acc
        else if c = '\\' then
          match rest with
          | [] => none
          | d :: rest2 =>
            if d = '"' ∨ d = '\\' then shlexSplitAux fuel .double rest2 (cur ++ [d]) true acc
            else shlexSplitAux fuel .double rest2 (cur ++ ['\\', d]) true acc
        else shlexSplitAux fuel .double rest (cur ++ [c]) true acc

/-- Python `shlex.split(s)`; `none` models the `ValueError` on unbalanced
quoting or a trailing escape character. -/
def shlexSplit (s : String) : Option (List String) :=
  shlexSplitAux (s.data.length + 1) .norm s.data [] false []

/-- The characters Python `shlex.quote` leaves unquoted
(ASCII letters, digits and the characters underscore, at, percent, plus,
equals, colon, comma, dot, slash, dash). -/
def shlexSafeChar (c : Char) : Bool :=
  c.isAlpha || c.isDigit || c == '_' || c == '@' || c == '%' || c == '+' ||
  c == '=' || c == ':' || c == ',' || c == '.' || c == '/' || c == '-'

/-- Python `shlex.quote(s)`: empty becomes `''`; safe strings pass through;
anything else is single-quoted with embedded single quotes turned into
`'"'"'`. -/
def shlexQuote (s : String) : String :=
  if s = "" then "''"
  else if s.data.all shlexSafeChar then s
  else "'" ++ String.mk ((s.data.map
    (fun c => if c = '\'' then "'\"'\"'".data else [c])).flatten) ++ "'"

/-! ### Dict model (Python dict over string keys, insertion ordered) -/

/-- Insertion-ordered association list standing for a Python `dict`. -/
abbrev EnvList := List (String × String)

/-- Python `d[k] = v`: replace the value in place if the key is present,
else append the binding at the end. -/
def dictUpdate : EnvList → String → String → EnvList
  | [], k, v => [(k, v)]
  | (k1, v1) :: rest, k, v =>
      if k1 = k then (k1, v) :: rest else (k1, v1) :: dictUpdate rest k v

/-- Python `d.get(k)` / `k in d` lookup (first occurrence). -/
def dlookup {α : Type} : List (String × α) → String → Option α
  | [], _ => none
  | (k1, v1) :: rest, k => if k1 = k then some v1 else dlookup rest k

/-- Python `d.update(l)`: apply every binding of `l`, in order. -/
def updAll (d : EnvList) (l : EnvList) : EnvList :=
  l.foldl (fun d kv => dictUpdate d kv.1 kv.2) d

/-- Python `dict(l)`. -/
def dictOf (l : EnvList) : EnvList := updAll [] l

/-- Python `d = {}; d.update(base); d.update(upd)` — the merge pattern used
throughout pf_shell.py (task env first, command-line env overriding). -/
def mergeEnv (base upd : EnvList) : EnvList := updAll (dictOf base) upd

/-! ### Command parser (pf_shell.parse_shell_command) -/

/-- First character of a Python identifier (`[A-Za-z_]`). -/
def isIdentStart (c : Char) : Bool := c.isAlpha || c == '_'

/-- Later character of a Python identifier (`[A-Za-z0-9_]`). -/
def isIdentChar (c : Char) : Bool := c.isAlpha || c.isDigit || c == '_'

/-- Exact match of `[A-Za-z_][A-Za-z0-9_]*`. -/
def isIdentCore : List Char → Bool
  | [] => false
  | c :: rest => isIdentStart c && rest.all isIdentChar

/-- Python `re.match(r'^[A-Za-z_][A-Za-z0-9_]*$', k)`: the `$` anchor also
matches just before one trailing newline, so `"A\n"` is accepted. -/
def pyIdentMatch (k : String) : Bool :=
  isIdentCore k.data || (k.data.getLast? == some '\n' && isIdentCore k.data.dropLast)

/-- Python `token.split('=', 1)`: the text before the first `=` and the text
after it. -/
def splitEq (t : String) : String × String :=
  (String.mk (t.data.takeWhile (fun c => c != '=')),
   String.mk ((t.data.dropWhile (fun c => c != '=')).drop 1))

/-- The test a token must pass to be consumed as a leading environment
assignment: contains `=`, does not begin with `-`, and its left-hand side
matches the identifier pattern. -/
def isEnvAssignment (t : String) : Bool :=
  containsSub t "=" && !(isPrefixCh "-".data t.data) && pyIdentMatch (splitEq t).1

/-- The scanning loop of `parse_shell_command`: consume leading assignment
tokens into the env dict; the first failing token and everything after it is
the remaining command. -/
def parseEnvLoop : List String → EnvList → EnvList × List String
  | [], env => (env, [])
  | t :: ts, env =>
      if isEnvAssignment t then
        parseEnvLoop ts (dictUpdate env (splitEq t).1 (splitEq t).2)
      else (env, t :: ts)

/-- pf_shell.parse_shell_command: tokenize, strip leading `KEY=VALUE`
assignments, and re-join the remaining tokens (each re-quoted). -/
def parseShellCommand (cmdLine : String) : Except PfError (EnvList × String) :=
  match shlexSplit cmdLine with
  | none => .error (.execErr "Failed to parse shell command"
      (some "Check for unclosed quotes or invalid escape sequences"))
  | some tokens =>
      let p := parseEnvLoop tokens []
      let remainingCmd :=
        if p.2.isEmpty then ""
        else String.intercalate " " (p.2.map shlexQuote)
      .ok (p.1, remainingCmd)

/-! ### Secure executor (pf_shell._has_shell_metacharacters,
pf_shell._build_secure_command_args) -/

/-- The fixed metacharacter/operator list of `_has_shell_metacharacters`,
in source order. -/
def shellChars : List String :=
  ["|", ">", "<", "&", ";", "`", "$",
   "&&", "||", ">>", "<<", "2>", "2>&1",
   "*", "?", "[", "]", "\x7b", "\x7d",
   "~", "(", ")",
   "\n"]

/-- pf_shell._has_shell_metacharacters: true iff any entry of `shellChars`
occurs in the command. -/
def hasShellMetacharacters (cmd : String) : Bool :=
  shellChars.any (fun ch => containsSub cmd ch)

/-- The `export KEY=quoted-value` lines built for a merged environment. -/
def envExports (env : EnvList) : List String :=
  env.map (fun kv => "export " ++ kv.1 ++ "=" ++ shlexQuote kv.2)

/-- Folding environment exports ahead of a command:
`export K1=V1; ...; export Kn=Vn; command` (the command alone when the
environment is empty). -/
def withEnvExports (env : EnvList) (command : String) : String :=
  if (envExports env).isEmpty then command
  else String.intercalate "; " (envExports env) ++ "; " ++ command

/-- The `['-u', user]` insert of the sudo branch; Python tests `if sudo_user:`
so an empty user counts as absent. -/
def sudoUserArgs : Option String → List String
  | some u => if u ≠ "" then ["-u", u] else []
  | none => []

/-- pf_shell._build_secure_command_args: build the argv for
`subprocess.Popen(shell=False)`.  Without sudo: plain tokenization when no
shell features are present (falling back to `bash -c` if tokenization
fails), and `['bash','-c',command]` when they are.  With sudo: a
`sudo [-u user] -H` prefix followed either by `bash -c` with the
environment folded in (shell features) or by the plain tokens (tokenization
failure is an error in this branch). -/
def buildSecureCommandArgs (command : String) (envVars : EnvList) (taskEnv : EnvList)
    (useSudo : Bool) (sudoUser : Option String) : Except PfError (List String) :=
  let needsShellFeatures := hasShellMetacharacters command
  if useSudo then
    if needsShellFeatures then
      let allEnv := mergeEnv taskEnv envVars
      let fullCommand := withEnvExports allEnv command
      .ok (["sudo"] ++ sudoUserArgs sudoUser ++ ["-H"] ++ ["bash", "-c", fullCommand])
    else
      match shlexSplit command with
      | some cmdArgs => .ok (["sudo"] ++ sudoUserArgs sudoUser ++ ["-H"] ++ cmdArgs)
      | none => .error (.execErr "Failed to parse sudo command arguments"
          (some "Check for unclosed quotes or invalid escape sequences"))
  else if needsShellFeatures then
    .ok ["bash", "-c", command]
  else
    match shlexSplit command with
    | some args => .ok args
    | none => .ok ["bash", "-c", command]

/-! ### Full command construction and execution
(pf_shell.build_shell_command, pf_shell.execute_shell_command) -/

/-- pf_shell.build_shell_command: the composite command string submitted to
a remote connection — environment exports (task env first, command-line env
overriding), then the command, then sudo wrapping if requested. -/
def buildShellCommand (envVars : EnvList) (command : String) (taskEnv : EnvList)
    (useSudo : Bool) (sudoUser : Option String) : String :=
  let allEnv := mergeEnv taskEnv envVars
  let fullCommand := withEnvExports allEnv command
  if useSudo then
    match sudoUser with
    | some u =>
        if u ≠ "" then
          "sudo -u " ++ shlexQuote u ++ " -H bash -lc " ++ shlexQuote fullCommand
        else "sudo bash -lc " ++ shlexQuote fullCommand
    | none => "sudo bash -lc " ++ shlexQuote fullCommand
  else fullCommand

/-- The environment handed to the local subprocess
(`dict(os.environ)`, then the task env, then the parsed command-line env). -/
def procEnvOf (osEnv taskEnv envVars : EnvList) : EnvList :=
  updAll (updAll (dictOf osEnv) taskEnv) envVars

/-- The environment shown in the echoed command line
(task env first, command-line env overriding). -/
def displayEnvOf (taskEnv envVars : EnvList) : EnvList :=
  mergeEnv taskEnv envVars

/-- The echoed command: `KEY=quoted-value ... command`, with a `(sudo) `
marker when elevated. -/
def displayCommand (displayEnv : EnvList) (command : String) (useSudo : Bool) : String :=
  let base :=
    if displayEnv.isEmpty then command
    else String.intercalate " "
      (displayEnv.map (fun kv => kv.1 ++ "=" ++ shlexQuote kv.2)) ++ " " ++ command
  if useSudo then "(sudo) " ++ base else base

/-- Observable outcome of `execute_shell_command`: the exit code, the argv
and environment of every local process spawned, every composite command
submitted to the remote connection, and the lines printed. -/
structure ExecOutcome where
  exitCode : Int
  localSpawns : List (List String × EnvList)
  remoteRuns : List String
  printed : List String
  deriving DecidableEq, Repr

/-- pf_shell.execute_shell_command.  `localRun` and `remoteRun` are oracles
giving the exit code of a spawned process; `hasConnection` selects remote
execution.  An empty command after environment parsing warns and returns 0
without spawning anything. -/
def executeShellCommand (localRun : List String → Int) (remoteRun : String → Int)
    (hasConnection : Bool) (osEnv : EnvList) (cmdLine : String) (taskEnv : EnvList)
    (useSudo : Bool) (sudoUser : Option String) (pfx : String) :
    Except PfError ExecOutcome := do
  let (envVars, command) ← parseShellCommand cmdLine
  if command = "" then
    return ⟨0, [], [], [pfx ++ "[warn] Empty command after parsing environment variables"]⟩
  let printed := [pfx ++ "$ " ++ displayCommand (displayEnvOf taskEnv envVars) command useSudo]
  if hasConnection then
    let fullCommand := buildShellCommand envVars command taskEnv useSudo sudoUser
    return ⟨remoteRun fullCommand, [], [fullCommand], printed⟩
  else
    let procEnv := procEnvOf osEnv taskEnv envVars
    let cmdArgs ← buildSecureCommandArgs command envVars taskEnv useSudo sudoUser
    return ⟨localRun cmdArgs, [(cmdArgs, procEnv)], [], printed⟩

/-! ### Parallel aggregation (pf_task_executor.TaskExecutor.execute_parallel_tasks) -/

/-- TaskExecutor.execute_parallel_tasks, abstracted over the per-task exit
codes in completion order (an exception from a task is reported and counts
as exit code 1 in the source, hence an `Int` per task here): an empty batch
returns 0, otherwise `rc_total = rc_total or rc` is folded over the results
(Python `or`: keep `rc_total` when non-zero, else take `rc`). -/
def executeParallelTasks (results : List Int) : Int :=
  if results.isEmpty then 0
  else results.foldl (fun rcTotal rc => if rcTotal ≠ 0 then rcTotal else rc) 0

/-! ### Polyglot builder (pf_polyglot.py) -/

/-- The here-document fence `_POLY_DELIM`. -/
def POLY_DELIM : String := "__PFY_LANG__"

/-- pf_polyglot._cmd_str: shell-quoted join of interpreter command parts. -/
def cmdStr (parts : List String) : String :=
  String.intercalate " " (parts.map shlexQuote)

/-- pf_polyglot._poly_args: drop empty arguments, shell-quote the rest,
join with spaces. -/
def polyArgs (args : List String) : String :=
  String.intercalate " " ((args.filter (fun a => a ≠ "")).map shlexQuote)

/-- pf_polyglot._ensure_newline. -/
def ensureNewline (src : String) : String :=
  if src.data.getLast? == some '\n' then src else src ++ "\n"

/-- pf_polyglot._build_script_command: the rendered payload for interpreted
languages — stage the code into `$tmpdir` via a fenced here-document, run
the interpreter on it with quoted arguments, remove `$tmpdir`, exit with
the interpreter's code. -/
def buildScriptCommand (interpreterCmd : String) (ext : String) (code : String)
    (args : List String) (basename : String) : String :=
  let code := ensureNewline code
  let argStr := polyArgs args
  "tmpdir=$(mktemp -d)\n"
    ++ "src=\"$tmpdir/" ++ basename ++ ext ++ "\"\n"
    ++ "cat <<'" ++ POLY_DELIM ++ "' > \"$src\"\n"
    ++ code
    ++ POLY_DELIM
    ++ "\nchmod +x \"$src\" 2>/dev/null || true\n"
    ++ interpreterCmd ++ " \"$src\""
    ++ (if argStr ≠ "" then " " ++ argStr else "")
    ++ "\nrc=$?\nrm -rf \"$tmpdir\"\nexit $rc\n"

/-- Python `template.format(**mapping)` restricted to what the polyglot
templates use: named fields, `\x7b\x7b` and `\x7d\x7d` escapes; an unknown
field or malformed template is an error (Python raises).  Fuelled; each
step consumes at least one character. -/
def pyFormatAux (m : EnvList) : Nat → List Char → Option (List Char)
  | 0, _ => none
  | _ + 1, [] => some []
  | fuel + 1, '\x7b' :: '\x7b' :: rest => (pyFormatAux m fuel rest).map (fun r => '\x7b' :: r)
  | fuel + 1, '\x7d' :: '\x7d' :: rest => (pyFormatAux m fuel rest).map (fun r => '\x7d' :: r)
  | fuel + 1, '\x7b' :: rest =>
      let name := rest.takeWhile (fun c => c != '\x7d')
      match rest.dropWhile (fun c => c != '\x7d') with
      | '\x7d' :: rest2 =>
          match dlookup m (String.mk name) with
          | some v => (pyFormatAux m fuel rest2).map (fun r => v.data ++ r)
          | none => none
      | _ => none
  | _ + 1, '\x7d' :: _ => none
  | fuel + 1, c :: rest => (pyFormatAux m fuel rest).map (fun r => c :: r)

/-- Python `template.format(**mapping)`. -/
def pyFormat (template : String) (m : EnvList) : Option String :=
  (pyFormatAux m (template.data.length + 1) template.data).map String.mk

/-- The placeholder mapping of `_build_compile_command`. -/
def stdMapping : EnvList :=
  [("src", "\"$src\""), ("bin", "\"$bin\""), ("dir", "\"$tmpdir\""),
   ("classes", "\"$classes\""), ("jar", "\"$jar\"")]

/-- pf_polyglot._build_compile_command: the rendered payload for compiled
languages — stage the code via a fenced here-document, run the substituted
compiler command, capture `rc=$?`, run the substituted run command (with
arguments appended when `appendArgs`) only if `rc` is zero, remove
`$tmpdir`, exit with `rc`. -/
def buildCompileCommand (ext : String) (code : String) (compilerCmd : String)
    (runCmd : String) (args : List String) (setupLines : List String)
    (basename : String) (appendArgs : Bool) : Option String :=
  let code := ensureNewline code
  let argStr := polyArgs args
  let setup0 := String.intercalate "\n" setupLines
  let setup := if setup0 ≠ "" then setup0 ++ "\n" else setup0
  match pyFormat compilerCmd stdMapping with
  | none => none
  | some compiler =>
  match pyFormat runCmd (stdMapping ++ [("args", argStr)]) with
  | none => none
  | some runner0 =>
  let runner := if appendArgs && argStr ≠ "" then runner0 ++ " " ++ argStr else runner0
  some ("tmpdir=$(mktemp -d)\n"
    ++ "src=\"$tmpdir/" ++ basename ++ ext ++ "\"\n"
    ++ "bin=\"$tmpdir/pf_poly_bin\"\n"
    ++ setup
    ++ "cat <<'" ++ POLY_DELIM ++ "' > \"$src\"\n"
    ++ code
    ++ POLY_DELIM
    ++ "\n"
    ++ compiler
    ++ "\nrc=$?\n"
    ++ "if [ $rc -eq 0 ]; then\n"
    ++ "  " ++ runner ++ "\n"
    ++ "  rc=$?\n"
    ++ "fi\n"
    ++ "rm -rf \"$tmpdir\"\nexit $rc\n")

/-- A language builder: `(sourceCode, argumentList) → renderedShellScript`
(`none` models a raised formatting error, which the registry's templates
never trigger). -/
abbrev Builder := String → List String → Option String

/-- pf_polyglot._script_profile. -/
def scriptProfile (parts : List String) (ext : String) (basename : String) : Builder :=
  fun code args => some (buildScriptCommand (cmdStr parts) ext code args basename)

/-- pf_polyglot._compile_profile. -/
def compileProfile (ext compilerCmd runCmd : String) (setupLines : List String)
    (basename : String) (appendArgs : Bool) : Builder :=
  fun code args =>
    buildCompileCommand ext code compilerCmd runCmd args setupLines basename appendArgs

/-- pf_polyglot._java_openjdk_builder. -/
def javaOpenjdkBuilder : Builder :=
  compileProfile ".java" "javac -d {classes} {src}" "(cd {classes} && java Main{args})"
    ["classes=\"$tmpdir/classes\"", "mkdir -p \"$classes\""] "Main" false

/-- pf_polyglot._java_android_builder: the literal body of the Android
variant (with `\x7b`, `\x7d` written for the brace characters of the shell
parameter expansions). -/
def javaAndroidBuilder : Builder := fun code args =>
  let code := ensureNewline code
  let argStr := polyArgs args
  let argSeg := if argStr ≠ "" then " " ++ argStr else ""
  some ("tmpdir=$(mktemp -d)\n"
    ++ "src=\"$tmpdir/Main.java\"\n"
    ++ "classes=\"$tmpdir/classes\"\n"
    ++ "dexdir=\"$tmpdir/dex\"\n"
    ++ "mkdir -p \"$classes\" \"$dexdir\"\n"
    ++ "cat <<'" ++ POLY_DELIM ++ "' > \"$src\"\n"
    ++ code ++ POLY_DELIM ++ "\n"
    ++ "\n"
    ++ "ANDROID_SDK=\"$\x7bANDROID_SDK_ROOT:-$\x7bANDROID_HOME:-\x7d\x7d\"\n"
    ++ "platform_jar=\"$\x7bANDROID_PLATFORM_JAR:-\x7d\"\n"
    ++ "if [ -z \"$platform_jar\" ] && [ -n \"$ANDROID_SDK\" ]; then\n"
    ++ "  latest_platform=$(ls -1 \"$ANDROID_SDK/platforms\" 2>/dev/null | sort -V | tail -1)\n"
    ++ "  if [ -n \"$latest_platform\" ] && [ -f \"$ANDROID_SDK/platforms/$latest_platform/android.jar\" ]; then\n"
    ++ "    platform_jar=\"$ANDROID_SDK/platforms/$latest_platform/android.jar\"\n"
    ++ "  fi\n"
    ++ "fi\n"
    ++ "javac_cp=\"\"\n"
    ++ "if [ -n \"$platform_jar\" ] && [ -f \"$platform_jar\" ]; then\n"
    ++ "  javac_cp=\"-classpath $platform_jar\"\n"
    ++ "fi\n"
    ++ "javac $javac_cp -d \"$classes\" \"$src\"\n"
    ++ "rc=$?\n"
    ++ "if [ $rc -ne 0 ]; then\n"
    ++ "  rm -rf \"$tmpdir\"\n"
    ++ "  exit $rc\n"
    ++ "fi\n"
    ++ "\n"
    ++ "d8_bin=\"$\x7bANDROID_D8:-\x7d\"\n"
    ++ "if [ -z \"$d8_bin\" ] && [ -n \"$ANDROID_SDK\" ]; then\n"
    ++ "  latest_bt=$(ls -1 \"$ANDROID_SDK/build-tools\" 2>/dev/null | sort -V | tail -1)\n"
    ++ "  if [ -n \"$latest_bt\" ] && [ -x \"$ANDROID_SDK/build-tools/$latest_bt/d8\" ]; then\n"
    ++ "    d8_bin=\"$ANDROID_SDK/build-tools/$latest_bt/d8\"\n"
    ++ "  fi\n"
    ++ "fi\n"
    ++ "\n"
    ++ "if [ -n \"$d8_bin\" ] && command -v dalvikvm >/dev/null 2>&1; then\n"
    ++ "  \"$d8_bin\" --output \"$dexdir\" \"$classes\" >/dev/null\n"
    ++ "  rc=$?\n"
    ++ "  if [ $rc -eq 0 ]; then\n"
    ++ "    dalvikvm -cp \"$dexdir/classes.dex\" Main" ++ argSeg ++ "\n"
    ++ "    rc=$?\n"
    ++ "    rm -rf \"$tmpdir\"\n"
    ++ "    exit $rc\n"
    ++ "  fi\n"
    ++ "fi\n"
    ++ "\n"
    ++ "(cd \"$classes\" && java Main" ++ argSeg ++ ")\n"
    ++ "rc=$?\n"
    ++ "rm -rf \"$tmpdir\"\n"
    ++ "exit $rc\n")

/-- pf_polyglot.POLYGLOT_LANGS, in source order. -/
def POLYGLOT_LANGS : List (String × Builder) := [
  ("bash", scriptProfile ["bash"] ".sh" "pf_poly"),
  ("sh", scriptProfile ["sh"] ".sh" "pf_poly"),
  ("dash", scriptProfile ["dash"] ".sh" "pf_poly"),
  ("zsh", scriptProfile ["zsh"] ".sh" "pf_poly"),
  ("fish", scriptProfile ["fish"] ".fish" "pf_poly"),
  ("ksh", scriptProfile ["ksh"] ".sh" "pf_poly"),
  ("tcsh", scriptProfile ["tcsh"] ".csh" "pf_poly"),
  ("pwsh", scriptProfile ["pwsh", "-NoLogo", "-NonInteractive", "-File"] ".ps1" "pf_poly"),
  ("python", scriptProfile ["python3"] ".py" "pf_poly"),
  ("node", scriptProfile ["node"] ".js" "pf_poly"),
  ("deno", scriptProfile ["deno", "run"] ".ts" "pf_poly"),
  ("ts-node", scriptProfile ["ts-node"] ".ts" "pf_poly"),
  ("perl", scriptProfile ["perl"] ".pl" "pf_poly"),
  ("php", scriptProfile ["php"] ".php" "pf_poly"),
  ("ruby", scriptProfile ["ruby"] ".rb" "pf_poly"),
  ("r", scriptProfile ["Rscript"] ".R" "pf_poly"),
  ("julia", scriptProfile ["julia"] ".jl" "pf_poly"),
  ("haskell", scriptProfile ["runghc"] ".hs" "pf_poly"),
  ("ocaml", scriptProfile ["ocaml"] ".ml" "pf_poly"),
  ("elixir", scriptProfile ["elixir"] ".exs" "pf_poly"),
  ("dart", scriptProfile ["dart", "run"] ".dart" "pf_poly"),
  ("lua", scriptProfile ["lua"] ".lua" "pf_poly"),
  ("go", scriptProfile ["go", "run"] ".go" "pf_poly"),
  ("rust", compileProfile ".rs" "rustc {src} -o {bin}" "{bin}" [] "pf_poly" true),
  ("c", compileProfile ".c" "clang -x c {src} -o {bin}" "{bin}" [] "pf_poly" true),
  ("cpp", compileProfile ".cc" "clang++ {src} -o {bin}" "{bin}" [] "pf_poly" true),
  ("c-llvm", compileProfile ".c"
    "clang -x c -O3 -S -emit-llvm {src} -o {bin}.ll && cat {bin}.ll"
    "echo '(LLVM IR generated with O3 optimization)'" [] "pf_poly" true),
  ("cpp-llvm", compileProfile ".cc"
    "clang++ -O3 -S -emit-llvm {src} -o {bin}.ll && cat {bin}.ll"
    "echo '(LLVM IR generated with O3 optimization)'" [] "pf_poly" true),
  ("c-llvm-bc", compileProfile ".c"
    "clang -x c -O3 -c -emit-llvm {src} -o {bin}.bc && llvm-dis {bin}.bc -o {bin}.ll && cat {bin}.ll"
    "echo '(LLVM bitcode generated with O3 optimization)'" [] "pf_poly" true),
  ("cpp-llvm-bc", compileProfile ".cc"
    "clang++ -O3 -c -emit-llvm {src} -o {bin}.bc && llvm-dis {bin}.bc -o {bin}.ll && cat {bin}.ll"
    "echo '(LLVM bitcode generated with O3 optimization)'" [] "pf_poly" true),
  ("fortran", compileProfile ".f90" "gfortran {src} -o {bin}" "{bin}" [] "pf_poly" true),
  ("fortran-llvm", compileProfile ".f90"
    "flang -O3 {src} -S -emit-llvm -o {bin}.ll && cat {bin}.ll"
    "echo '(LLVM IR generated with O3 optimization)'" [] "pf_poly" true),
  ("asm", compileProfile ".s" "clang -x assembler {src} -o {bin}" "{bin}" [] "pf_poly" true),
  ("zig", compileProfile ".zig" "zig build-exe -O Debug -femit-bin={bin} {src}" "{bin}"
    [] "pf_poly" true),
  ("nim", compileProfile ".nim" "nim c -o:{bin} {src}" "{bin}" [] "pf_poly" true),
  ("crystal", compileProfile ".cr" "crystal build -o {bin} {src}" "{bin}" [] "pf_poly" true),
  ("haskell-compile", compileProfile ".hs" "ghc -o {bin} {src}" "{bin}" [] "pf_poly" true),
  ("ocamlc", compileProfile ".ml" "ocamlc -o {bin} {src}" "{bin}" [] "pf_poly" true),
  ("java-openjdk", javaOpenjdkBuilder),
  ("java-android", javaAndroidBuilder)]

/-- pf_polyglot.POLYGLOT_ALIASES, in source order. -/
def POLYGLOT_ALIASES : List (String × String) := [
  ("shell", "bash"),
  ("sh", "sh"),
  ("zshell", "zsh"),
  ("powershell", "pwsh"),
  ("ps1", "pwsh"),
  ("py", "python"),
  ("python3", "python"),
  ("ipython", "python"),
  ("javascript", "node"),
  ("js", "node"),
  ("nodejs", "node"),
  ("ts", "deno"),
  ("typescript", "deno"),
  ("tsnode", "ts-node"),
  ("c++", "cpp"),
  ("cxx", "cpp"),
  ("clang", "c"),
  ("clang++", "cpp"),
  ("g++", "cpp"),
  ("gcc", "c"),
  ("c-ir", "c-llvm"),
  ("c-ll", "c-llvm"),
  ("cpp-ir", "cpp-llvm"),
  ("cpp-ll", "cpp-llvm"),
  ("c-bc", "c-llvm-bc"),
  ("cpp-bc", "cpp-llvm-bc"),
  ("fortran-ll", "fortran-llvm"),
  ("fortran-ir", "fortran-llvm"),
  ("golang", "go"),
  ("rb", "ruby"),
  ("pl", "perl"),
  ("ml", "ocaml"),
  ("hs", "haskell"),
  ("fortran90", "fortran"),
  ("gfortran", "fortran"),
  ("java", "java-openjdk"),
  ("java-openjdk", "java-openjdk"),
  ("java-android-google", "java-android"),
  ("java-android", "java-android"),
  ("android-java", "java-android"),
  ("fishshell", "fish"),
  ("shellscript", "bash"),
  ("dashshell", "dash"),
  ("asm86", "asm")]

/-- Python whitespace characters stripped by `str.strip()` (ASCII range). -/
def isPySpace (c : Char) : Bool :=
  c == ' ' || c == '\t' || c == '\n' || c == '\r' || c == '\x0b' || c == '\x0c'

/-- Python `s.strip()`. -/
def pyStrip (s : String) : String :=
  String.mk (((s.data.dropWhile isPySpace).reverse.dropWhile isPySpace).reverse)

/-- Python `s.lower()` on the ASCII range. -/
def asciiLower (s : String) : String :=
  String.mk (s.data.map (fun c => if c.isUpper then Char.ofNat (c.toNat + 32) else c))

/-- pf_polyglot._canonical_lang: lower-case and trim the hint, then look it
up in the alias table, falling back to the trimmed hint itself. -/
def canonicalLang (langHint : String) : String :=
  let langKey := asciiLower (pyStrip langHint)
  (dlookup POLYGLOT_ALIASES langKey).getD langKey

/-- Lexicographic (code-point) strict order on strings, as Python string
comparison. -/
def strLtB : List Char → List Char → Bool
  | [], [] => false
  | [], _ :: _ => true
  | _ :: _, [] => false
  | a :: as, b :: bs =>
      if a.toNat < b.toNat then true
      else if b.toNat < a.toNat then false
      else strLtB as bs

/-- Non-strict lexicographic order on strings. -/
def strLeB (a b : String) : Bool := !(strLtB b.data a.data)

/-- Stable insertion into a sorted list (ascending by `strLeB`). -/
def insertSorted (x : String) : List String → List String
  | [] => [x]
  | y :: ys => if strLeB x y then x :: y :: ys else y :: insertSorted x ys

/-- Python `sorted` on strings (insertion sort; stable, ascending). -/
def sortStrings : List String → List String
  | [] => []
  | x :: xs => insertSorted x (sortStrings xs)

/-- pf_polyglot.get_supported_languages: `sorted(POLYGLOT_LANGS.keys())`. -/
def getSupportedLanguages : List String :=
  sortStrings (POLYGLOT_LANGS.map Prod.fst)

/-- Adjacent lexicographic sortedness of a string list. -/
def chainLeB : List String → Bool
  | [] => true
  | [_] => true
  | a :: b :: r => strLeB a b && chainLeB (b :: r)

/-- The filesystem as seen by the polyglot source extractor: path to file
contents, `none` when the path does not exist. -/
abbrev FileSystem := String → Option String

/-- Python `os.path.isabs` on POSIX. -/
def pathIsAbs (p : String) : Bool := isPrefixCh "/".data p.data

/-- Python `os.path.join(base, rel)` on POSIX, for a non-absolute `rel` and
non-empty `base`. -/
def pathJoin (base rel : String) : String :=
  if base.data.getLast? == some '/' then base ++ rel else base ++ "/" ++ rel

/-- Python `if tokens and tokens[0] == "--": tokens = tokens[1:]` — drop one
leading `--` separator. -/
def dropDoubleDash : List String → List String
  | "--" :: r => r
  | r => r

/-- The resolved source path of an `@`/`file:` token: strip the prefix,
keep absolute paths, join relative ones to the base directory. -/
def resolvedPath (t0 b : String) : String :=
  let relPath := if isPrefixCh "@".data t0.data then strDrop t0 1 else strDrop t0 5
  if pathIsAbs relPath then relPath else pathJoin b relPath

/-- pf_polyglot._extract_polyglot_source: if the first token is prefixed
`@` or `file:`, require a base directory (Python tests `if not base_dir`,
so `none` and the empty string both fail), resolve the path (absolute paths
kept as-is), read the file (a missing file is a PFSyntaxError naming the
full path), and drop one leading `--` from the remaining tokens; otherwise
the raw command is the inline source with no trailing arguments. -/
def extractPolyglotSource (fs : FileSystem) (cmd : String) (baseDir : Option String) :
    Except PfError (String × List String × Option String) :=
  match shlexSplit cmd with
  | none => .error (.execErr "Failed to tokenize polyglot command" none)
  | some [] => .ok (cmd, [], none)
  | some (t0 :: rest) =>
    if isPrefixCh "@".data t0.data || isPrefixCh "file:".data t0.data then
      if baseDir.getD "" = "" then
        .error (.synErr "Cannot resolve polyglot source file: no base directory available"
          none (some "Ensure the Pfyfile is in a valid directory"))
      else
        let fullPath := resolvedPath t0 (baseDir.getD "")
        match fs fullPath with
        | none => .error (.synErr ("Polyglot source file not found: " ++ fullPath)
            (some fullPath) (some "Check that the file path is correct and the file exists"))
        | some code => .ok (code, dropDoubleDash rest, some fullPath)
    else .ok (cmd, [], none)

/-- pf_polyglot.render_polyglot_command: a falsy hint (absent or empty)
renders nothing; otherwise canonicalize the hint, fail with a
PFExecutionError enumerating the sorted supported keys when it is not
registered, extract the source and run the registered builder. -/
def renderPolyglotCommand (fs : FileSystem) (langHint : Option String) (cmd : String)
    (workingDir : Option String) : Except PfError (Option String × Option String) :=
  match langHint with
  | none => .ok (none, none)
  | some hint =>
    if hint = "" then .ok (none, none)
    else
      let langKey := canonicalLang hint
      match dlookup POLYGLOT_LANGS langKey with
      | none => .error (.execErr
          ("Language '" ++ langKey ++ "' (from '" ++ hint ++ "') has no builder registered")
          (some ("Supported languages: " ++ String.intercalate ", " getSupportedLanguages)))
      | some builder =>
        match extractPolyglotSource fs cmd workingDir with
        | .error e => .error e
        | .ok (snippet, langArgs, _) =>
          match builder snippet langArgs with
          | some rendered => .ok (some rendered, some langKey)
          | none => .error (.execErr "Polyglot template formatting failed" none)

/-! ### Semantics of the rendered payloads

The rendered payload is a POSIX shell script.  To reason about what it
does we give a small operational semantics at line granularity for the
constructs the generated scripts use: variable assignments (no process
spawned), a `cat` here-document redirect (stages the following lines, up
to the exact fence line, into the target file), `rc=$?` (captures the last
exit status), `if [ $rc -eq 0 ]; then ... fi` (runs the body only when the
captured status is zero), `rm -rf "$tmpdir"` (removes the temporary
directory), `exit $rc`, and every other non-blank line as an external
command whose exit status is supplied by an oracle.  The oracle abstracts
over the behaviour of compilers, interpreters and user binaries. -/

/-- Split a character list into its lines (inverse of joining with a
newline; a trailing newline yields a final empty line). -/
def splitNl : List Char → List (List Char)
  | [] => [[]]
  | c :: rest =>
    match splitNl rest with
    | [] => [[]]
    | l :: ls => if c = '\n' then [] :: l :: ls else (c :: l) :: ls

/-- Join lines with newlines (left inverse of `splitNl`). -/
def joinNl (ls : List (List Char)) : List Char := List.intercalate ['\n'] ls

/-- Strip leading blanks of a script line. -/
def trimSp (l : List Char) : List Char := l.dropWhile (fun c => c == ' ')

/-- A line of the shape `name=...` (a shell variable assignment; runs no
external command). -/
def isAssignLine (l : List Char) : Bool :=
  !(l.takeWhile isIdentChar).isEmpty &&
    (l.dropWhile isIdentChar).head? == some '='

/-- The opening of the staging here-document. -/
def heredocStartMark : String := "cat <<'__PFY_LANG__'"

/-- Interpreter mode: normal; inside the here-document (accumulating staged
lines); skipping a failed `if` body. -/
inductive RMode where
  | norm
  | hdoc (acc : List (List Char))
  | skipIf

/-- Observable result of running a rendered payload: final exit code,
whether `rm -rf "$tmpdir"` ran, the external commands executed (in order),
and the contents staged by here-documents (as line lists). -/
structure RunResult where
  exitCode : Int
  removedTmp : Bool
  ran : List (List Char)
  staged : List (List (List Char))
  deriving DecidableEq, Repr

/-- Internal interpreter state: status of the last external command, the
`rc` shell variable, and the observables accumulated so far. -/
structure RIState where
  lastStatus : Int
  rcVar : Int
  removedTmp : Bool
  ran : List (List Char)
  staged : List (List (List Char))

/-- Line-level execution of a rendered payload. -/
def runLines (oracle : List Char → Int) : RMode → RIState → List (List Char) → RunResult
  | _, st, [] => ⟨st.rcVar, st.removedTmp, st.ran, st.staged⟩
  | .hdoc acc, st, l :: rest =>
      if l = POLY_DELIM.data then
        runLines oracle .norm { st with staged := st.staged ++ [acc] } rest
      else runLines oracle (.hdoc (acc ++ [l])) st rest
  | .skipIf, st, l :: rest =>
      if trimSp l = "fi".data then runLines oracle .norm st rest
      else runLines oracle .skipIf st rest
  | .norm, st, l :: rest =>
      let t := trimSp l
      if t = [] then runLines oracle .norm st rest
      else if isPrefixCh heredocStartMark.data t then runLines oracle (.hdoc []) st rest
      else if t = "rc=$?".data then
        runLines oracle .norm { st with rcVar := st.lastStatus } rest
      else if t = "if [ $rc -eq 0 ]; then".data then
        if st.rcVar = 0 then runLines oracle .norm st rest
        else runLines oracle .skipIf st rest
      else if t = "fi".data then runLines oracle .norm st rest
      else if t = "rm -rf \"$tmpdir\"".data then
        runLines oracle .norm { st with removedTmp := true } rest
      else if t = "exit $rc".data then ⟨st.rcVar, st.removedTmp, st.ran, st.staged⟩
      else if isAssignLine t then runLines oracle .norm st rest
      else runLines oracle .norm
        { st with lastStatus := oracle t, ran := st.ran ++ [t] } rest

/-- Run a rendered payload from the initial state. -/
def runScript (oracle : List Char → Int) (script : String) : RunResult :=
  runLines oracle .norm ⟨0, 0, false, [], []⟩ (splitNl script.data)

/-! ### The compiled-language profiles of the registry -/

/-- The parameters a compiled-language profile passes to
`_build_compile_command`. -/
structure CompileParams where
  ext : String
  compilerCmd : String
  runCmd : String
  setupLines : List String
  basename : String
  appendArgs : Bool
  deriving Repr

/-- The registry entries built through `_compile_profile` (including the
OpenJDK profile), with the parameters they were constructed from, in
source order. -/
def compiledProfileEntries : List (String × CompileParams) := [
  ("rust", ⟨".rs", "rustc {src} -o {bin}", "{bin}", [], "pf_poly", true⟩),
  ("c", ⟨".c", "clang -x c {src} -o {bin}", "{bin}", [], "pf_poly", true⟩),
  ("cpp", ⟨".cc", "clang++ {src} -o {bin}", "{bin}", [], "pf_poly", true⟩),
  ("c-llvm", ⟨".c", "clang -x c -O3 -S -emit-llvm {src} -o {bin}.ll && cat {bin}.ll",
    "echo '(LLVM IR generated with O3 optimization)'", [], "pf_poly", true⟩),
  ("cpp-llvm", ⟨".cc", "clang++ -O3 -S -emit-llvm {src} -o {bin}.ll && cat {bin}.ll",
    "echo '(LLVM IR generated with O3 optimization)'", [], "pf_poly", true⟩),
  ("c-llvm-bc", ⟨".c",
    "clang -x c -O3 -c -emit-llvm {src} -o {bin}.bc && llvm-dis {bin}.bc -o {bin}.ll && cat {bin}.ll",
    "echo '(LLVM bitcode generated with O3 optimization)'", [], "pf_poly", true⟩),
  ("cpp-llvm-bc", ⟨".cc",
    "clang++ -O3 -c -emit-llvm {src} -o {bin}.bc && llvm-dis {bin}.bc -o {bin}.ll && cat {bin}.ll",
    "echo '(LLVM bitcode generated with O3 optimization)'", [], "pf_poly", true⟩),
  ("fortran", ⟨".f90", "gfortran {src} -o {bin}", "{bin}", [], "pf_poly", true⟩),
  ("fortran-llvm", ⟨".f90", "flang -O3 {src} -S -emit-llvm -o {bin}.ll && cat {bin}.ll",
    "echo '(LLVM IR generated with O3 optimization)'", [], "pf_poly", true⟩),
  ("asm", ⟨".s", "clang -x assembler {src} -o {bin}", "{bin}", [], "pf_poly", true⟩),
  ("zig", ⟨".zig", "zig build-exe -O Debug -femit-bin={bin} {src}", "{bin}", [], "pf_poly", true⟩),
  ("nim", ⟨".nim", "nim c -o:{bin} {src}", "{bin}", [], "pf_poly", true⟩),
  ("crystal", ⟨".cr", "crystal build -o {bin} {src}", "{bin}", [], "pf_poly", true⟩),
  ("haskell-compile", ⟨".hs", "ghc -o {bin} {src}", "{bin}", [], "pf_poly", true⟩),
  ("ocamlc", ⟨".ml", "ocamlc -o {bin} {src}", "{bin}", [], "pf_poly", true⟩),
  ("java-openjdk", ⟨".java", "javac -d {classes} {src}", "(cd {classes} && java Main{args})",
    ["classes=\"$tmpdir/classes\"", "mkdir -p \"$classes\""], "Main", false⟩)]

/-- The substituted compiler command of a profile. -/
def compilerLineOf (p : CompileParams) : String :=
  (pyFormat p.compilerCmd stdMapping).getD ""

/-- The substituted run command of a profile at a given argument list
(arguments appended when the profile says so). -/
def runnerLineOf (p : CompileParams) (args : List String) : String :=
  let argStr := polyArgs args
  let r0 := (pyFormat p.runCmd (stdMapping ++ [("args", argStr)])).getD ""
  if p.appendArgs && argStr ≠ "" then r0 ++ " " ++ argStr else r0

/-- The external commands a profile's setup lines run (assignment-shaped
setup lines run no command). -/
def setupCmdsOf (setupLines : List String) : List (List Char) :=
  (setupLines.map (fun s => trimSp s.data)).filter (fun t => !isAssignLine t)

/-- The snippet as the line list staged by the here-document. -/
def stagedLinesOf (code : String) : List (List Char) :=
  (splitNl (ensureNewline code).data).dropLast

/-- The snippet never contains the here-document fence as one of its own
lines (the condition under which the fence confines it). -/
def NoFence (code : String) : Prop :=
  POLY_DELIM.data ∉ splitNl (ensureNewline code).data

/-- A (trimmed) script line the interpreter treats as an external command:
non-blank and not one of the recognized control or assignment forms. -/
abbrev PlainCmd (t : List Char) : Prop :=
  t ≠ [] ∧ ¬(isPrefixCh heredocStartMark.data t = true) ∧ t ≠ "rc=$?".data ∧
  t ≠ "if [ $rc -eq 0 ]; then".data ∧ t ≠ "fi".data ∧
  t ≠ "rm -rf \"$tmpdir\"".data ∧ t ≠ "exit $rc".data ∧ ¬(isAssignLine t = true)

/-! ## Theorems -/

/-! ### Helper lemmas: the env-scanning loop -/

/-- The scanning loop is takeWhile/dropWhile with the assignment test: the
collected environment is the dict built from the longest all-assignment
prefix, and the remaining tokens are the rest. -/
theorem parseEnvLoop_eq (ts : List String) (env : EnvList) :
    parseEnvLoop ts env =
      ((ts.takeWhile isEnvAssignment).foldl
          (fun d t => dictUpdate d (splitEq t).1 (splitEq t).2) env,
        ts.dropWhile isEnvAssignment) := by
  induction ts generalizing env with
  | nil => simp [parseEnvLoop]
  | cons t ts ih =>
    by_cases h : isEnvAssignment t = true
    · simp [parseEnvLoop, h, ih]
    · simp [parseEnvLoop, h]

/-! ### C1: secure argv construction without elevation -/

/-- C1 counterexample: the command `echo "hi` contains no shell
metacharacter from the fixed set, yet the argument builder returns the
three-element shell vector (its tokenization fails on the unclosed quote
and the builder falls back to `bash -c`), so a metacharacter-free command
is not always returned as a direct argument vector. -/
theorem c1_counterexample :
    hasShellMetacharacters "echo \"hi" = false ∧
    buildSecureCommandArgs "echo \"hi" [] [] false none =
      .ok ["bash", "-c", "echo \"hi"] := by
  constructor
  · decide
  · decide

/-- C1 (amended): without elevation, a command containing at least one of
the fixed shell metacharacters is returned exactly as
`['bash', '-c', command]`; a metacharacter-free command that tokenizes
successfully under shell quoting rules is returned as its direct argument
vector; and a metacharacter-free command whose tokenization fails falls
back to `['bash', '-c', command]`. -/
theorem c1_secure_command_args (cmd : String) (envVars taskEnv : EnvList) :
    (hasShellMetacharacters cmd = true →
      buildSecureCommandArgs cmd envVars taskEnv false none = .ok ["bash", "-c", cmd]) ∧
    (hasShellMetacharacters cmd = false → ∀ ts, shlexSplit cmd = some ts →
      buildSecureCommandArgs cmd envVars taskEnv false none = .ok ts) ∧
    (hasShellMetacharacters cmd = false → shlexSplit cmd = none →
      buildSecureCommandArgs cmd envVars taskEnv false none = .ok ["bash", "-c", cmd]) := by
  refine ⟨fun h => ?_, fun h ts hts => ?_, fun h hn => ?_⟩
  · simp [buildSecureCommandArgs, h]
  · simp [buildSecureCommandArgs, h, hts]
  · simp [buildSecureCommandArgs, h, hn]

/-- C1 witness: both branches of the amended claim at concrete inputs. -/
theorem c1_witness :
    buildSecureCommandArgs "echo hi && echo bye" [] [] false none =
      .ok ["bash", "-c", "echo hi && echo bye"] ∧
    buildSecureCommandArgs "echo hi" [] [] false none = .ok ["echo", "hi"] := by
  constructor
  · exact (c1_secure_command_args "echo hi && echo bye" [] []).1 (by decide)
  · exact (c1_secure_command_args "echo hi" [] []).2.1 (by decide) ["echo", "hi"] (by decide)

/-! ### C2: the command parser -/

/-- C2: on every command line that tokenizes successfully, the parser
returns exactly the dict built from the longest leading prefix of
assignment tokens (token contains `=`, does not begin with `-`, left-hand
side matches the identifier pattern; the value is the text after the first
`=`), and the remaining command is the space-join of the individually
re-quoted remaining tokens. -/
theorem c2_parse_shell_command (cmdLine : String) (ts : List String)
    (h : shlexSplit cmdLine = some ts) :
    parseShellCommand cmdLine = .ok
      ((ts.takeWhile isEnvAssignment).foldl
          (fun d t => dictUpdate d (splitEq t).1 (splitEq t).2) [],
        String.intercalate " " ((ts.dropWhile isEnvAssignment).map shlexQuote)) := by
  unfold parseShellCommand
  rw [h]
  simp only [parseEnvLoop_eq]
  by_cases he : ts.dropWhile isEnvAssignment = []
  · simp [he]
    rfl
  · simp [he]

/-- C2 witness: the scenario `PORT=8080 node server.js`. -/
theorem c2_witness :
    parseShellCommand "PORT=8080 node server.js" =
      .ok ([("PORT", "8080")], "node server.js") := by
  have h := c2_parse_shell_command "PORT=8080 node server.js"
    ["PORT=8080", "node", "server.js"] (by decide)
  rw [h]
  decide

/-! ### C4: parallel aggregation -/

/-- The Python `or` fold keeps a non-zero accumulator. -/
theorem foldOr_of_ne_zero (l : List Int) (a : Int) (ha : a ≠ 0) :
    l.foldl (fun rcTotal rc => if rcTotal ≠ 0 then rcTotal else rc) a = a := by
  induction l with
  | nil => rfl
  | cons x t ih => simpa [ha] using ih

/-- Folding the Python `or` over a list gives zero exactly when the seed
and every element are zero. -/
theorem foldOr_eq_zero_iff (l : List Int) (a : Int) :
    l.foldl (fun rcTotal rc => if rcTotal ≠ 0 then rcTotal else rc) a = 0 ↔
      a = 0 ∧ ∀ rc ∈ l, rc = 0 := by
  induction l generalizing a with
  | nil => simp
  | cons x t ih =>
    by_cases ha : a = 0
    · subst ha
      simp only [List.foldl_cons, if_neg (by simp : ¬((0 : Int) ≠ 0))]
      rw [ih x]
      simp
    · simp only [List.foldl_cons, if_pos ha]
      rw [foldOr_of_ne_zero t a ha]
      simp [ha]

/-- The batch code is zero exactly when every completed result is zero. -/
theorem executeParallelTasks_eq_zero_iff (results : List Int) :
    executeParallelTasks results = 0 ↔ ∀ rc ∈ results, rc = 0 := by
  unfold executeParallelTasks
  rcases results with _ | ⟨x, t⟩
  · simp
  · simp only [List.isEmpty_cons, if_false, Bool.false_eq_true]
    rw [foldOr_eq_zero_iff]
    simp

/-- C4: the batch exit code of the parallel executor is zero iff every
task outcome is zero (equivalently: non-zero iff some outcome is
non-zero), and this is invariant under permutation of the completion
order; the fold consumes every result, so no failure cancels a sibling. -/
theorem c4_parallel_aggregation (results : List Int) :
    (executeParallelTasks results = 0 ↔ ∀ rc ∈ results, rc = 0) ∧
    (executeParallelTasks results ≠ 0 ↔ ∃ rc ∈ results, rc ≠ 0) ∧
    (∀ results2, results.Perm results2 →
      (executeParallelTasks results = 0 ↔ executeParallelTasks results2 = 0)) := by
  have h0 := executeParallelTasks_eq_zero_iff results
  refine ⟨h0, ⟨?_, ?_⟩, ?_⟩
  · intro hne
    by_contra hc
    push_neg at hc
    exact hne (h0.mpr hc)
  · rintro ⟨rc, hrc, hrcne⟩ hz
    exact hrcne (h0.mp hz rc hrc)
  · intro results2 hperm
    rw [executeParallelTasks_eq_zero_iff, executeParallelTasks_eq_zero_iff]
    exact ⟨fun hall rc hrc => hall rc (hperm.mem_iff.mpr hrc),
           fun hall rc hrc => hall rc (hperm.mem_iff.mp hrc)⟩

/-- C4 witness: a batch with one failure is non-zero in either completion
order; an all-zero batch is zero. -/
theorem c4_witness :
    executeParallelTasks [0, 2] ≠ 0 ∧ executeParallelTasks [2, 0] ≠ 0 ∧
    executeParallelTasks [0, 0, 0] = 0 := by
  have h1 := (c4_parallel_aggregation [0, 2]).2.1.mpr ⟨2, by simp, by decide⟩
  have hperm := (c4_parallel_aggregation [0, 2]).2.2 [2, 0] (by decide)
  refine ⟨h1, fun hc => h1 (hperm.mpr hc), ?_⟩
  exact (c4_parallel_aggregation [0, 0, 0]).1.mpr (by intro rc hrc; simpa using hrc)

/-! ### C7: sudo wrapping -/

/-- C7: with elevation requested, the built argv begins with `sudo`,
contains `-u <user>` exactly when a non-empty elevation user is given,
then `-H`; under shell features it continues `bash -c` with one string in
which the exports (task env updated by command-line env) are folded ahead
of the command; otherwise it continues with the plain tokens, and the
result does not depend on the environments at all (they travel through
the process environment, not textually). -/
theorem c7_sudo_wrapping (cmd : String) (envVars taskEnv : EnvList)
    (sudoUser : Option String) :
    (hasShellMetacharacters cmd = true →
      buildSecureCommandArgs cmd envVars taskEnv true sudoUser =
        .ok (["sudo"] ++ sudoUserArgs sudoUser ++
          ["-H", "bash", "-c", withEnvExports (mergeEnv taskEnv envVars) cmd])) ∧
    (hasShellMetacharacters cmd = false → ∀ ts, shlexSplit cmd = some ts →
      buildSecureCommandArgs cmd envVars taskEnv true sudoUser =
        .ok (["sudo"] ++ sudoUserArgs sudoUser ++ ["-H"] ++ ts)) ∧
    (∀ u, u ≠ "" → sudoUserArgs (some u) = ["-u", u]) ∧
    (sudoUserArgs none = [] ∧ sudoUserArgs (some "") = []) ∧
    (hasShellMetacharacters cmd = false → ∀ ts, shlexSplit cmd = some ts →
      ∀ envVars2 taskEnv2,
        buildSecureCommandArgs cmd envVars2 taskEnv2 true sudoUser =
          buildSecureCommandArgs cmd envVars taskEnv true sudoUser) := by
  refine ⟨fun h => ?_, fun h ts hts => ?_, fun u hu => ?_, ⟨rfl, by simp [sudoUserArgs]⟩,
    fun h ts hts envVars2 taskEnv2 => ?_⟩
  · simp [buildSecureCommandArgs, h]
  · simp [buildSecureCommandArgs, h, hts]
  · simp [sudoUserArgs, hu]
  · simp [buildSecureCommandArgs, h, hts]

/-- C7 witness: shell-feature and plain branches at concrete inputs. -/
theorem c7_witness :
    buildSecureCommandArgs "echo hi && ls" [("B", "2")] [("A", "1")] true (some "bob") =
      .ok ["sudo", "-u", "bob", "-H", "bash", "-c",
        "export A=1; export B=2; echo hi && ls"] ∧
    buildSecureCommandArgs "ls /tmp" [("B", "2")] [("A", "1")] true none =
      .ok ["sudo", "-H", "ls", "/tmp"] := by
  constructor
  · have h := (c7_sudo_wrapping "echo hi && ls" [("B", "2")] [("A", "1")] (some "bob")).1
      (by decide)
    rw [h]
    decide
  · have h := (c7_sudo_wrapping "ls /tmp" [("B", "2")] [("A", "1")] none).2.1
      (by decide) ["ls", "/tmp"] (by decide)
    rw [h]
    decide

/-! ### C9: all-assignment command lines -/

/-- C9: when every token of the command line is a leading environment
assignment (or the line is empty), the executor prints the empty-command
warning and returns exit code 0 without spawning any local process and
without submitting anything to the remote connection. -/
theorem c9_empty_command (localRun : List String → Int) (remoteRun : String → Int)
    (hasConnection : Bool) (osEnv : EnvList) (cmdLine : String) (taskEnv : EnvList)
    (useSudo : Bool) (sudoUser : Option String) (pfx : String) (ts : List String)
    (h : shlexSplit cmdLine = some ts) (hall : ∀ t ∈ ts, isEnvAssignment t = true) :
    executeShellCommand localRun remoteRun hasConnection osEnv cmdLine taskEnv
        useSudo sudoUser pfx =
      .ok ⟨0, [], [], [pfx ++ "[warn] Empty command after parsing environment variables"]⟩ := by
  have hdrop : ts.dropWhile isEnvAssignment = [] := by
    rw [List.dropWhile_eq_nil_iff]
    intro x hx
    exact hall x hx
  have hparse : parseShellCommand cmdLine = .ok
      ((ts.takeWhile isEnvAssignment).foldl
        (fun d t => dictUpdate d (splitEq t).1 (splitEq t).2) [], "") := by
    unfold parseShellCommand
    rw [h]
    simp only [parseEnvLoop_eq]
    rw [hdrop]
    simp
  unfold executeShellCommand
  rw [hparse]
  rfl

/-- C9 witness: a pure-assignment line returns 0 with no spawns. -/
theorem c9_witness :
    executeShellCommand (fun _ => 7) (fun _ => 9) false [] "A=1 B=2" [("T", "t")]
        false none "pre" =
      .ok ⟨0, [], [], ["pre[warn] Empty command after parsing environment variables"]⟩ := by
  exact c9_empty_command (fun _ => 7) (fun _ => 9) false [] "A=1 B=2" [("T", "t")]
    false none "pre" ["A=1", "B=2"] (by decide) (by decide)

/-! ### C10: command-line env overrides task env everywhere -/

/-- Updating a dict binds the key to the new value and leaves other keys
unchanged. -/
theorem dlookup_dictUpdate (d : EnvList) (k k2 v : String) :
    dlookup (dictUpdate d k v) k2 = if k = k2 then some v else dlookup d k2 := by
  induction d with
  | nil =>
    by_cases h : k = k2 <;> simp [dictUpdate, dlookup, h]
  | cons kv rest ih =>
    obtain ⟨k1, v1⟩ := kv
    by_cases h1 : k1 = k
    · subst h1
      by_cases h2 : k1 = k2 <;> simp [dictUpdate, dlookup, h2]
    · by_cases h2 : k1 = k2
      · subst h2
        have hk : ¬(k = k1) := fun hh => h1 hh.symm
        simp [dictUpdate, h1, dlookup, hk]
      · simp [dictUpdate, h1, dlookup, h2, ih]

/-- A bulk update leaves keys that it does not mention unchanged. -/
theorem dlookup_updAll_notmem (l : List (String × String)) (d : EnvList) (k : String)
    (h : k ∉ l.map Prod.fst) :
    dlookup (updAll d l) k = dlookup d k := by
  induction l generalizing d with
  | nil => rfl
  | cons kv rest ih =>
    simp only [List.map_cons, List.mem_cons] at h
    push_neg at h
    rw [show updAll d (kv :: rest) = updAll (dictUpdate d kv.1 kv.2) rest from rfl]
    rw [ih _ h.2, dlookup_dictUpdate]
    exact if_neg (fun hh => h.1 hh.symm)

/-- After a bulk update from a duplicate-free dict, every key of that dict
maps to its value there. -/
theorem dlookup_updAll_mem (l : List (String × String)) (d : EnvList) (k v : String)
    (hnd : (l.map Prod.fst).Nodup) (h : dlookup l k = some v) :
    dlookup (updAll d l) k = some v := by
  induction l generalizing d with
  | nil => simp [dlookup] at h
  | cons kv rest ih =>
    obtain ⟨k1, v1⟩ := kv
    simp only [List.map_cons, List.nodup_cons] at hnd
    have e : dlookup ((k1, v1) :: rest) k = if k1 = k then some v1 else dlookup rest k := rfl
    by_cases h1 : k1 = k
    · subst h1
      rw [e, if_pos rfl] at h
      rw [show updAll d ((k1, v1) :: rest) = updAll (dictUpdate d k1 v1) rest from rfl]
      rw [dlookup_updAll_notmem rest _ k1 hnd.1]
      rw [dlookup_dictUpdate]
      rw [if_pos rfl]
      exact h
    · rw [e, if_neg h1] at h
      exact ih _ hnd.2 h

/-- A successful lookup exhibits a member. -/
theorem dlookup_mem {α : Type} (d : List (String × α)) (k : String) (v : α)
    (h : dlookup d k = some v) : (k, v) ∈ d := by
  induction d with
  | nil => simp [dlookup] at h
  | cons kv rest ih =>
    obtain ⟨k1, v1⟩ := kv
    have e : dlookup ((k1, v1) :: rest) k = if k1 = k then some v1 else dlookup rest k := rfl
    by_cases h1 : k1 = k
    · subst h1
      rw [e, if_pos rfl, Option.some.injEq] at h
      subst h
      exact List.mem_cons_self _ _
    · rw [e, if_neg h1] at h
      exact List.mem_cons_of_mem _ (ih h)

/-- C10: for a key bound both in the task environment and in the parsed
command-line assignments, the command-line value wins in the merged dict
used for the remote export string (and that export line is present), in
the local subprocess environment, and in the echoed display environment. -/
theorem c10_env_precedence (taskEnv envVars osEnv : EnvList) (k vT vC : String)
    (hnd : (envVars.map Prod.fst).Nodup)
    (hT : dlookup taskEnv k = some vT) (hC : dlookup envVars k = some vC) :
    dlookup (mergeEnv taskEnv envVars) k = some vC ∧
    ("export " ++ k ++ "=" ++ shlexQuote vC) ∈ envExports (mergeEnv taskEnv envVars) ∧
    dlookup (procEnvOf osEnv taskEnv envVars) k = some vC ∧
    dlookup (displayEnvOf taskEnv envVars) k = some vC := by
  have hm : dlookup (mergeEnv taskEnv envVars) k = some vC :=
    dlookup_updAll_mem envVars _ k vC hnd hC
  refine ⟨hm, ?_, dlookup_updAll_mem envVars _ k vC hnd hC, hm⟩
  exact List.mem_map.mpr ⟨(k, vC), dlookup_mem _ _ _ hm, rfl⟩

/-- C10 witness: with `K` bound to `task` in the task env and to `cli` on
the command line, every site sees `cli`. -/
theorem c10_witness :
    dlookup (mergeEnv [("K", "task")] [("K", "cli")]) "K" = some "cli" ∧
    ("export " ++ "K" ++ "=" ++ shlexQuote "cli") ∈
      envExports (mergeEnv [("K", "task")] [("K", "cli")]) ∧
    dlookup (procEnvOf [("P", "os")] [("K", "task")] [("K", "cli")]) "K" = some "cli" ∧
    dlookup (displayEnvOf [("K", "task")] [("K", "cli")]) "K" = some "cli" :=
  c10_env_precedence [("K", "task")] [("K", "cli")] [("P", "os")] "K" "task" "cli"
    (by decide) (by decide) (by decide)

/-! ### C3: language-key canonicalization -/

/-- Inserting into a sorted list is a permutation of consing. -/
theorem insertSorted_perm (x : String) (l : List String) :
    (insertSorted x l).Perm (x :: l) := by
  induction l with
  | nil => exact List.Perm.refl _
  | cons y ys ih =>
    by_cases h : strLeB x y = true
    · simp [insertSorted, h]
    · simp only [insertSorted, if_neg h]
      exact (List.Perm.cons y ih).trans (List.Perm.swap x y ys)

/-- The sorted key list is a permutation of the registry keys. -/
theorem sortStrings_perm (l : List String) : (sortStrings l).Perm l := by
  induction l with
  | nil => exact List.Perm.refl _
  | cons x xs ih =>
    exact (insertSorted_perm x (sortStrings xs)).trans (List.Perm.cons x ih)

/-- C3 counterexample: the empty hint canonicalizes to a key that is not
registered, yet rendering silently returns no-op `(none, none)` instead of
failing with an ExecutionError. -/
theorem c3_counterexample :
    renderPolyglotCommand (fun _ => none) (some "") "echo" none = .ok (none, none) ∧
    (dlookup POLYGLOT_LANGS (canonicalLang "")).isSome = false := by
  exact ⟨rfl, by decide⟩

/-- C3 (amended): every alias of the table canonicalizes to its canonical
key, canonicalization fixes every canonical key, and every canonical key
is registered; for every NON-EMPTY hint whose canonicalization is not
registered, rendering fails with an ExecutionError whose suggestion
enumerates the supported keys sorted lexicographically (a sorted
permutation of the registry keys); an empty or absent hint renders the
no-op `(none, none)` without error. -/
theorem c3_canonicalization :
    (∀ p ∈ POLYGLOT_ALIASES, canonicalLang p.1 = p.2 ∧ canonicalLang p.2 = p.2 ∧
      (dlookup POLYGLOT_LANGS p.2).isSome = true) ∧
    (∀ (fs : FileSystem) (hint cmd : String) (wd : Option String), hint ≠ "" →
      (dlookup POLYGLOT_LANGS (canonicalLang hint)).isSome = false →
      renderPolyglotCommand fs (some hint) cmd wd = .error (.execErr
        ("Language '" ++ canonicalLang hint ++ "' (from '" ++ hint ++
          "') has no builder registered")
        (some ("Supported languages: " ++ String.intercalate ", " getSupportedLanguages)))) ∧
    chainLeB getSupportedLanguages = true ∧
    getSupportedLanguages.Perm (POLYGLOT_LANGS.map Prod.fst) := by
  refine ⟨by decide, ?_, by decide, sortStrings_perm _⟩
  intro fs hint cmd wd hne hnone
  have hnone2 : dlookup POLYGLOT_LANGS (canonicalLang hint) = none := by
    cases h2 : dlookup POLYGLOT_LANGS (canonicalLang hint) with
    | none => rfl
    | some b => rw [h2] at hnone; simp at hnone
  simp [renderPolyglotCommand, hne, hnone2]

/-- C3 witness: the unregistered hint `frobnicate` errors with the sorted
enumeration; the alias facts applied at `py`. -/
theorem c3_witness :
    renderPolyglotCommand (fun _ => none) (some "frobnicate") "echo hi" none =
      .error (.execErr "Language 'frobnicate' (from 'frobnicate') has no builder registered"
        (some ("Supported languages: " ++ String.intercalate ", " getSupportedLanguages))) ∧
    canonicalLang "py" = "python" := by
  constructor
  · have h := (c3_canonicalization).2.1 (fun _ => none) "frobnicate" "echo hi" none
      (by decide) (by decide)
    rw [h]
    decide
  · exact ((c3_canonicalization).1 ("py", "python") (by decide)).1

/-! ### C6: polyglot source extraction -/

/-- C6 counterexample: with no base directory, an absolute `@`-path whose
target exists still fails (the base-directory check precedes the
absolute-path test), and the error does not name the path — the claim
would have the file read and, failing that, the path named. -/
theorem c6_counterexample :
    extractPolyglotSource (fun p => if p = "/a.py" then some "print" else none)
        "@/a.py" none =
      .error (.synErr "Cannot resolve polyglot source file: no base directory available"
        none (some "Ensure the Pfyfile is in a valid directory")) ∧
    pathIsAbs "/a.py" = true ∧
    (if "/a.py" = "/a.py" then some "print" else (none : Option String)) = some "print" := by
  exact ⟨by decide, by decide, by decide⟩

/-- C6 (amended): for a command whose first token carries the `@`/`file:`
prefix, a falsy base directory (absent or empty) is a SyntaxError even
when the path is absolute, and that error does not name the path; with a
real base directory the path is resolved relative to it unless absolute,
a missing target is a SyntaxError naming the resolved path, and an
existing target yields its full contents with the tokens after an
optional `--` as arguments; a first token without either prefix yields
the raw command as inline source with no trailing arguments. -/
theorem c6_extract_source (fs : FileSystem) (cmd : String) (baseDir : Option String)
    (t0 : String) (rest : List String) (hsplit : shlexSplit cmd = some (t0 :: rest)) :
    (¬(isPrefixCh "@".data t0.data = true ∨ isPrefixCh "file:".data t0.data = true) →
      extractPolyglotSource fs cmd baseDir = .ok (cmd, [], none)) ∧
    ((isPrefixCh "@".data t0.data = true ∨ isPrefixCh "file:".data t0.data = true) →
      (baseDir.getD "" = "" →
        extractPolyglotSource fs cmd baseDir =
          .error (.synErr "Cannot resolve polyglot source file: no base directory available"
            none (some "Ensure the Pfyfile is in a valid directory"))) ∧
      (∀ b, baseDir = some b → b ≠ "" →
        (fs (resolvedPath t0 b) = none →
          extractPolyglotSource fs cmd baseDir =
            .error (.synErr ("Polyglot source file not found: " ++ resolvedPath t0 b)
              (some (resolvedPath t0 b))
              (some "Check that the file path is correct and the file exists"))) ∧
        (∀ contents, fs (resolvedPath t0 b) = some contents →
          extractPolyglotSource fs cmd baseDir =
            .ok (contents, dropDoubleDash rest, some (resolvedPath t0 b))))) := by
  constructor
  · intro hno
    simp only [extractPolyglotSource, hsplit]
    rw [if_neg (by simpa using hno)]
  · intro hpre
    constructor
    · intro hbase
      simp only [extractPolyglotSource, hsplit]
      rw [if_pos (by simpa using hpre), if_pos hbase]
    · intro b hb hbne
      subst hb
      constructor
      · intro hfs
        simp only [extractPolyglotSource, hsplit, Option.getD_some]
        rw [if_pos (by simpa using hpre), if_neg hbne]
        simp [hfs]
      · intro contents hfs
        simp only [extractPolyglotSource, hsplit, Option.getD_some]
        rw [if_pos (by simpa using hpre), if_neg hbne]
        simp [hfs]

/-- C6 witness: relative resolution with `--` separation, a missing file,
and the inline branch, at concrete inputs. -/
theorem c6_witness :
    extractPolyglotSource (fun p => if p = "/base/x.py" then some "CODE" else none)
        "@x.py -- a b" (some "/base") = .ok ("CODE", ["a", "b"], some "/base/x.py") ∧
    extractPolyglotSource (fun _ => none) "file:y.py" (some "/base") =
      .error (.synErr "Polyglot source file not found: /base/y.py" (some "/base/y.py")
        (some "Check that the file path is correct and the file exists")) ∧
    extractPolyglotSource (fun _ => none) "echo hi" (some "/base") = .ok ("echo hi", [], none) := by
  refine ⟨?_, ?_, ?_⟩
  · have h := ((c6_extract_source (fun p => if p = "/base/x.py" then some "CODE" else none)
      "@x.py -- a b" (some "/base") "@x.py" ["--", "a", "b"] (by decide)).2
      (by decide)).2 "/base" rfl (by decide)
    exact h.2 "CODE" (by decide)
  · have h := ((c6_extract_source (fun _ => none) "file:y.py" (some "/base") "file:y.py" []
      (by decide)).2 (by decide)).2 "/base" rfl (by decide)
    have h2 := h.1 (by decide)
    rw [h2]
    decide
  · exact (c6_extract_source (fun _ => none) "echo hi" (some "/base") "echo" ["hi"]
      (by decide)).1 (by decide)

/-! ### C8: deterministic rendering, run-time temp directory -/

/-- Every script-profile payload begins with the `mktemp` line: the
temporary directory name is chosen by `mktemp -d` when the script runs,
not at render time. -/
theorem scriptProfile_starts (parts : List String) (ext bn : String)
    (code : String) (args : List String) (s : String)
    (h : scriptProfile parts ext bn code args = some s) :
    "tmpdir=$(mktemp -d)\n".data <+: s.data := by
  have hs := Option.some.inj h
  subst hs
  simp only [buildScriptCommand, String.data_append, List.append_assoc]
  exact List.prefix_append _ _

/-- Every compile-profile payload begins with the `mktemp` line. -/
theorem compileProfile_starts (ext ccmd rcmd : String) (setup : List String)
    (bn : String) (ap : Bool) (code : String) (args : List String) (s : String)
    (h : compileProfile ext ccmd rcmd setup bn ap code args = some s) :
    "tmpdir=$(mktemp -d)\n".data <+: s.data := by
  simp only [compileProfile, buildCompileCommand] at h
  rcases hc : pyFormat ccmd stdMapping with _ | cl
  · rw [hc] at h
    exact absurd h (by simp)
  · rw [hc] at h
    rcases hr : pyFormat rcmd (stdMapping ++ [("args", polyArgs args)]) with _ | r0
    · rw [hr] at h
      exact absurd h (by simp)
    · rw [hr] at h
      have hs := Option.some.inj h
      subst hs
      simp only [String.data_append, List.append_assoc]
      exact List.prefix_append _ _

/-- The Android JVM payload begins with the `mktemp` line. -/
theorem javaAndroid_starts (code : String) (args : List String) (s : String)
    (h : javaAndroidBuilder code args = some s) :
    "tmpdir=$(mktemp -d)\n".data <+: s.data := by
  have hs := Option.some.inj h
  subst hs
  simp only [javaAndroidBuilder, String.data_append, List.append_assoc]
  exact List.prefix_append _ _

/-- Every builder in the registry renders (when it succeeds) a script that
begins with `tmpdir=$(mktemp -d)`. -/
theorem registry_builders_start :
    ∀ p ∈ POLYGLOT_LANGS, ∀ (code : String) (args : List String) (s : String),
      p.2 code args = some s → "tmpdir=$(mktemp -d)\n".data <+: s.data := by
  simp only [POLYGLOT_LANGS, List.forall_mem_cons, List.not_mem_nil,
    false_implies, implies_true, and_true]
  exact ⟨fun code args s hb => scriptProfile_starts _ _ _ _ _ _ hb,
    fun code args s hb => scriptProfile_starts _ _ _ _ _ _ hb,
    fun code args s hb => scriptProfile_starts _ _ _ _ _ _ hb,
    fun code args s hb => scriptProfile_starts _ _ _ _ _ _ hb,
    fun code args s hb => scriptProfile_starts _ _ _ _ _ _ hb,
    fun code args s hb => scriptProfile_starts _ _ _ _ _ _ hb,
    fun code args s hb => scriptProfile_starts _ _ _ _ _ _ hb,
    fun code args s hb => scriptProfile_starts _ _ _ _ _ _ hb,
    fun code args s hb => scriptProfile_starts _ _ _ _ _ _ hb,
    fun code args s hb => scriptProfile_starts _ _ _ _ _ _ hb,
    fun code args s hb => scriptProfile_starts _ _ _ _ _ _ hb,
    fun code args s hb => scriptProfile_starts _ _ _ _ _ _ hb,
    fun code args s hb => scriptProfile_starts _ _ _ _ _ _ hb,
    fun code args s hb => scriptProfile_starts _ _ _ _ _ _ hb,
    fun code args s hb => scriptProfile_starts _ _ _ _ _ _ hb,
    fun code args s hb => scriptProfile_starts _ _ _ _ _ _ hb,
    fun code args s hb => scriptProfile_starts _ _ _ _ _ _ hb,
    fun code args s hb => scriptProfile_starts _ _ _ _ _ _ hb,
    fun code args s hb => scriptProfile_starts _ _ _ _ _ _ hb,
    fun code args s hb => scriptProfile_starts _ _ _ _ _ _ hb,
    fun code args s hb => scriptProfile_starts _ _ _ _ _ _ hb,
    fun code args s hb => scriptProfile_starts _ _ _ _ _ _ hb,
    fun code args s hb => scriptProfile_starts _ _ _ _ _ _ hb,
    fun code args s hb => compileProfile_starts _ _ _ _ _ _ _ _ _ hb,
    fun code args s hb => compileProfile_starts _ _ _ _ _ _ _ _ _ hb,
    fun code args s hb => compileProfile_starts _ _ _ _ _ _ _ _ _ hb,
    fun code args s hb => compileProfile_starts _ _ _ _ _ _ _ _ _ hb,
    fun code args s hb => compileProfile_starts _ _ _ _ _ _ _ _ _ hb,
    fun code args s hb => compileProfile_starts _ _ _ _ _ _ _ _ _ hb,
    fun code args s hb => compileProfile_starts _ _ _ _ _ _ _ _ _ hb,
    fun code args s hb => compileProfile_starts _ _ _ _ _ _ _ _ _ hb,
    fun code args s hb => compileProfile_starts _ _ _ _ _ _ _ _ _ hb,
    fun code args s hb => compileProfile_starts _ _ _ _ _ _ _ _ _ hb,
    fun code args s hb => compileProfile_starts _ _ _ _ _ _ _ _ _ hb,
    fun code args s hb => compileProfile_starts _ _ _ _ _ _ _ _ _ hb,
    fun code args s hb => compileProfile_starts _ _ _ _ _ _ _ _ _ hb,
    fun code args s hb => compileProfile_starts _ _ _ _ _ _ _ _ _ hb,
    fun code args s hb => compileProfile_starts _ _ _ _ _ _ _ _ _ hb,
    fun code args s hb => compileProfile_starts _ _ _ _ _ _ _ _ _ hb,
    fun code args s hb => javaAndroid_starts _ _ _ hb⟩

/-- Every builder the registry lookup can return renders (when it
succeeds) a script that begins with `tmpdir=$(mktemp -d)`. -/
theorem registry_starts_tmpdir (k : String) (b : Builder)
    (h : dlookup POLYGLOT_LANGS k = some b) (code : String) (args : List String)
    (s : String) (hb : b code args = some s) :
    "tmpdir=$(mktemp -d)\n".data <+: s.data :=
  registry_builders_start (k, b) (dlookup_mem _ _ _ h) code args s hb

/-- C8: the embedded render function is deterministic — two invocations
with identical inputs return identical output — and every successfully
rendered script begins with `tmpdir=$(mktemp -d)`, so the only varying
part of an actual run, the temporary directory name, is generated by
`mktemp` at script run time, not at render time. -/
theorem c8_render_deterministic (fs : FileSystem) (langHint : Option String)
    (cmd : String) (wd : Option String) :
    renderPolyglotCommand fs langHint cmd wd = renderPolyglotCommand fs langHint cmd wd ∧
    (∀ script langKey, renderPolyglotCommand fs langHint cmd wd = .ok (some script, langKey) →
      "tmpdir=$(mktemp -d)\n".data <+: script.data) := by
  refine ⟨rfl, ?_⟩
  intro script langKey h
  rcases langHint with _ | hint
  · simp [renderPolyglotCommand] at h
  · simp only [renderPolyglotCommand] at h
    by_cases hne : hint = ""
    · rw [if_pos hne] at h
      simp at h
    · rw [if_neg hne] at h
      rcases hl : dlookup POLYGLOT_LANGS (canonicalLang hint) with _ | b
      · simp [hl] at h
      · simp only [hl] at h
        rcases he : extractPolyglotSource fs cmd wd with e | ⟨snippet, langArgs, r3⟩
        · simp [he] at h
        · simp only [he] at h
          rcases hbr : b snippet langArgs with _ | rendered
          · simp [hbr] at h
          · simp only [hbr, Except.ok.injEq, Prod.mk.injEq, Option.some.injEq] at h
            rw [← h.1]
            exact registry_starts_tmpdir _ _ hl _ _ _ hbr

/-- C8 witness: two renders of `py` with the same inline source coincide,
and the rendered script begins with the `mktemp` line. -/
theorem c8_witness :
    "tmpdir=$(mktemp -d)\n".data <+:
      ("tmpdir=$(mktemp -d)\nsrc=\"$tmpdir/pf_poly.py\"\ncat <<'__PFY_LANG__' > \"$src\"\nprint(1)\n__PFY_LANG__\nchmod +x \"$src\" 2>/dev/null || true\npython3 \"$src\"\nrc=$?\nrm -rf \"$tmpdir\"\nexit $rc\n" : String).data ∧
    renderPolyglotCommand (fun _ => none) (some "py") "print(1)" none =
      renderPolyglotCommand (fun _ => none) (some "py") "print(1)" none := by
  constructor
  · exact (c8_render_deterministic (fun _ => none) (some "py") "print(1)" none).2
      _ (some "python") (by decide)
  · exact (c8_render_deterministic (fun _ => none) (some "py") "print(1)" none).1

/-! ### C5 infrastructure: line splitting -/

/-- One unfolding step of `splitNl`. -/
theorem splitNl_cons (c : Char) (rest : List Char) :
    splitNl (c :: rest) = match splitNl rest with
      | [] => [[]]
      | l :: ls => if c = '\n' then [] :: l :: ls else (c :: l) :: ls := rfl

/-- Splitting never returns an empty line list. -/
theorem splitNl_ne_nil (cs : List Char) : splitNl cs ≠ [] := by
  cases cs with
  | nil => simp [splitNl]
  | cons c rest =>
    rw [splitNl_cons]
    rcases h : splitNl rest with _ | ⟨l, ls⟩
    · simp
    · by_cases hc : c = '\n' <;> simp [hc]

/-- Splitting off one full (newline-free) line. -/
theorem splitNl_append_newline (a b : List Char) (h : ('\n' : Char) ∉ a) :
    splitNl (a ++ '\n' :: b) = a :: splitNl b := by
  induction a with
  | nil =>
    rw [List.nil_append, splitNl_cons]
    rcases hb : splitNl b with _ | ⟨l, ls⟩
    · exact absurd hb (splitNl_ne_nil b)
    · simp
  | cons c a ih =>
    have hc : c ≠ '\n' := fun hc => h (hc ▸ List.mem_cons_self _ _)
    have ha : ('\n' : Char) ∉ a := fun hm => h (List.mem_cons_of_mem _ hm)
    rw [List.cons_append, splitNl_cons, ih ha]
    simp [hc]

/-- A list ending in a newline splits into at least two lines. -/
theorem splitNl_of_last_newline (x : List Char) (hlast : x.getLast? = some '\n') :
    ∃ l ls, splitNl x = l :: ls ∧ ls ≠ [] := by
  induction x with
  | nil => simp at hlast
  | cons c x ih =>
    rcases x with _ | ⟨d, x2⟩
    · simp only [List.getLast?_singleton, Option.some.injEq] at hlast
      subst hlast
      exact ⟨[], [[]], rfl, by simp⟩
    · rw [List.getLast?_cons_cons] at hlast
      obtain ⟨l, ls, hsp, hne⟩ := ih hlast
      by_cases hc : c = '\n'
      · subst hc
        exact ⟨[], l :: ls, by rw [splitNl_cons, hsp]; simp, by simp⟩
      · exact ⟨c :: l, ls, by rw [splitNl_cons, hsp]; simp [hc], hne⟩

/-- Splitting a concatenation whose first part ends with a newline:
the first part contributes its full lines. -/
theorem splitNl_append_of_last_newline (x : List Char) (hlast : x.getLast? = some '\n') :
    ∀ b, splitNl (x ++ b) = (splitNl x).dropLast ++ splitNl b := by
  induction x with
  | nil => simp at hlast
  | cons c x ih =>
    intro b
    rcases x with _ | ⟨d, x2⟩
    · simp only [List.getLast?_singleton, Option.some.injEq] at hlast
      subst hlast
      rw [List.singleton_append, splitNl_cons]
      rcases hb : splitNl b with _ | ⟨l, ls⟩
      · exact absurd hb (splitNl_ne_nil b)
      · simp [splitNl]
    · rw [List.getLast?_cons_cons] at hlast
      have htail := ih hlast b
      obtain ⟨l, ls, hsp, hne⟩ := splitNl_of_last_newline (d :: x2) hlast
      rcases ls with _ | ⟨m, ms⟩
      · exact absurd rfl hne
      · have e1 : splitNl ((d :: x2) ++ b) = l :: ((m :: ms).dropLast ++ splitNl b) := by
          rw [htail, hsp]
          simp
        by_cases hc : c = '\n'
        · subst hc
          rw [List.cons_append, splitNl_cons, e1, splitNl_cons, hsp]
          simp
        · rw [List.cons_append, splitNl_cons, e1, splitNl_cons, hsp]
          simp [hc]

/-- The normalized snippet ends with a newline. -/
theorem ensureNewline_last (code : String) :
    (ensureNewline code).data.getLast? = some '\n' := by
  unfold ensureNewline
  by_cases h : code.data.getLast? == some '\n'
  · rw [if_pos h]
    exact eq_of_beq h
  · rw [if_neg h]
    have e : (code ++ "\n").data = code.data ++ ['\n'] := String.data_append code "\n"
    rw [e]
    simp

/-- Splitting a payload that begins with the normalized snippet: the
snippet contributes exactly its staged lines. -/
theorem splitNl_ensure (code : String) (b : List Char) :
    splitNl ((ensureNewline code).data ++ b) = stagedLinesOf code ++ splitNl b := by
  have hlast := ensureNewline_last code
  rw [splitNl_append_of_last_newline _ hlast b]
  rfl

/-! ### C5 infrastructure: interpreter steps

The concrete template lines of the generated payloads drive the
interpreter definitionally; the lines that embed varying data (the staged
snippet, the `src=` assignment, the compiler and runner commands) get
dedicated stepping lemmas. -/

/-- The `tmpdir=$(mktemp -d)` line is an assignment: no command runs. -/
theorem runStep_tmpdir (o : List Char → Int) (st : RIState) (r : List (List Char)) :
    runLines o .norm st ("tmpdir=$(mktemp -d)".data :: r) = runLines o .norm st r := rfl

/-- The `bin=` line is an assignment. -/
theorem runStep_bin (o : List Char → Int) (st : RIState) (r : List (List Char)) :
    runLines o .norm st ("bin=\"$tmpdir/pf_poly_bin\"".data :: r) = runLines o .norm st r := rfl

/-- Any `src=`-led line is an assignment, whatever follows the `=`. -/
theorem runStep_src (o : List Char → Int) (st : RIState) (seg : List Char)
    (r : List (List Char)) :
    runLines o .norm st (('s' :: 'r' :: 'c' :: '=' :: seg) :: r) = runLines o .norm st r := by
  have ht : trimSp ('s' :: 'r' :: 'c' :: '=' :: seg) = 's' :: 'r' :: 'c' :: '=' :: seg := rfl
  simp only [runLines, ht]
  rw [if_neg (by simp), if_neg (by simp [isPrefixCh]),
    if_neg (by simp [show ("rc=$?" : String).data = 'r' :: 'c' :: '=' :: '$' :: '?' :: [] from rfl]),
    if_neg (by simp [show ("if [ $rc -eq 0 ]; then" : String).data =
      'i' :: "f [ $rc -eq 0 ]; then".data from rfl]),
    if_neg (by simp [show ("fi" : String).data = 'f' :: 'i' :: [] from rfl]),
    if_neg (by simp [show ("rm -rf \"$tmpdir\"" : String).data =
      'r' :: 'm' :: " -rf \"$tmpdir\"".data from rfl]),
    if_neg (by simp [show ("exit $rc" : String).data = 'e' :: "xit $rc".data from rfl]),
    if_pos (by simp [isAssignLine, isIdentChar, List.takeWhile_cons, List.dropWhile_cons])]

/-- The staging `cat` here-document line enters here-document mode. -/
theorem runStep_cat (o : List Char → Int) (st : RIState) (r : List (List Char)) :
    runLines o .norm st ("cat <<'__PFY_LANG__' > \"$src\"".data :: r) =
      runLines o (.hdoc []) st r := rfl

/-- The here-document consumes lines up to the exact fence and stages
them. -/
theorem runStep_hdoc (o : List Char → Int) (st : RIState) (acc : List (List Char))
    (ls : List (List Char)) (rest : List (List Char)) (h : POLY_DELIM.data ∉ ls) :
    runLines o (.hdoc acc) st (ls ++ POLY_DELIM.data :: rest) =
      runLines o .norm { st with staged := st.staged ++ [acc ++ ls] } rest := by
  induction ls generalizing acc with
  | nil =>
    have e : runLines o (.hdoc acc) st (POLY_DELIM.data :: rest) =
        runLines o .norm { st with staged := st.staged ++ [acc] } rest := rfl
    rw [List.nil_append, e, List.append_nil]
  | cons l ls ih =>
    have hne : l ≠ POLY_DELIM.data := fun hc => h (hc ▸ List.mem_cons_self _ _)
    have e : runLines o (.hdoc acc) st ((l :: ls) ++ POLY_DELIM.data :: rest) =
        runLines o (.hdoc (acc ++ [l])) st (ls ++ POLY_DELIM.data :: rest) := by
      rw [List.cons_append]
      simp only [runLines]
      rw [if_neg hne]
    rw [e, ih (acc ++ [l]) (fun hm => h (List.mem_cons_of_mem _ hm))]
    simp

/-- An external command line: the oracle decides its status and it is
recorded. -/
theorem runStep_cmd (o : List Char → Int) (st : RIState) (l t : List Char)
    (r : List (List Char)) (ht : trimSp l = t) (h : PlainCmd t) :
    runLines o .norm st (l :: r) =
      runLines o .norm { st with lastStatus := o t, ran := st.ran ++ [t] } r := by
  obtain ⟨h1, h2, h3, h4, h5, h6, h7, h8⟩ := h
  simp only [runLines, ht]
  rw [if_neg h1, if_neg h2, if_neg h3, if_neg h4, if_neg h5, if_neg h6, if_neg h7, if_neg h8]

/-- The `rc=$?` line captures the last status. -/
theorem runStep_rc (o : List Char → Int) (st : RIState) (r : List (List Char)) :
    runLines o .norm st ("rc=$?".data :: r) =
      runLines o .norm { st with rcVar := st.lastStatus } r := rfl

/-- The indented `rc=$?` line captures the last status. -/
theorem runStep_rc2 (o : List Char → Int) (st : RIState) (r : List (List Char)) :
    runLines o .norm st ("  rc=$?".data :: r) =
      runLines o .norm { st with rcVar := st.lastStatus } r := rfl

/-- A zero `rc` enters the `if` body. -/
theorem runStep_if_true (o : List Char → Int) (st : RIState) (r : List (List Char))
    (h : st.rcVar = 0) :
    runLines o .norm st ("if [ $rc -eq 0 ]; then".data :: r) = runLines o .norm st r := by
  simp only [runLines]
  rw [if_neg (by decide), if_neg (by decide), if_neg (by decide), if_pos (by decide),
    if_pos h]

/-- A non-zero `rc` skips the `if` body. -/
theorem runStep_if_false (o : List Char → Int) (st : RIState) (r : List (List Char))
    (h : ¬(st.rcVar = 0)) :
    runLines o .norm st ("if [ $rc -eq 0 ]; then".data :: r) = runLines o .skipIf st r := by
  simp only [runLines]
  rw [if_neg (by decide), if_neg (by decide), if_neg (by decide), if_pos (by decide),
    if_neg h]

/-- `fi` in normal mode is a no-op. -/
theorem runStep_fi (o : List Char → Int) (st : RIState) (r : List (List Char)) :
    runLines o .norm st ("fi".data :: r) = runLines o .norm st r := rfl

/-- A skipped body line. -/
theorem runStep_skip (o : List Char → Int) (st : RIState) (l : List Char)
    (r : List (List Char)) (h : trimSp l ≠ "fi".data) :
    runLines o .skipIf st (l :: r) = runLines o .skipIf st r := by
  simp only [runLines]
  rw [if_neg h]

/-- `fi` leaves skip mode. -/
theorem runStep_skip_fi (o : List Char → Int) (st : RIState) (r : List (List Char)) :
    runLines o .skipIf st ("fi".data :: r) = runLines o .norm st r := rfl

/-- The cleanup line removes the temporary directory. -/
theorem runStep_rm (o : List Char → Int) (st : RIState) (r : List (List Char)) :
    runLines o .norm st ("rm -rf \"$tmpdir\"".data :: r) =
      runLines o .norm { st with removedTmp := true } r := rfl

/-- `exit $rc` ends the script with the captured code. -/
theorem runStep_exit (o : List Char → Int) (st : RIState) (r : List (List Char)) :
    runLines o .norm st ("exit $rc".data :: r) =
      ⟨st.rcVar, st.removedTmp, st.ran, st.staged⟩ := rfl

/-- Running the compiled-language template, at line granularity: the
snippet lines are staged verbatim; the setup commands and the compiler
run; the runner runs exactly when the compiler exited 0; the temporary
directory is removed on every path; the final code is the runner's when
the compiler succeeded and the compiler's otherwise. -/
theorem runLines_compile_template (o : List Char → Int) (st : RIState)
    (srcSeg : List Char) (setupSplit setupRan : List (List Char))
    (codeLines : List (List Char)) (cLine rLine : List Char)
    (hfence : POLY_DELIM.data ∉ codeLines)
    (hCt : trimSp cLine = cLine) (hC : PlainCmd cLine)
    (hRt : trimSp (' ' :: ' ' :: rLine) = rLine) (hR : PlainCmd rLine)
    (hsetup : ∀ (st2 : RIState) (rest2 : List (List Char)), ∃ ls2 : Int,
      runLines o .norm st2 (setupSplit ++ rest2) =
        runLines o .norm ⟨ls2, st2.rcVar, st2.removedTmp, st2.ran ++ setupRan, st2.staged⟩
          rest2) :
    runLines o .norm st
      ("tmpdir=$(mktemp -d)".data :: ('s' :: 'r' :: 'c' :: '=' :: srcSeg) ::
        "bin=\"$tmpdir/pf_poly_bin\"".data ::
        (setupSplit ++ ("cat <<'__PFY_LANG__' > \"$src\"".data ::
          (codeLines ++ (POLY_DELIM.data :: cLine :: "rc=$?".data ::
            "if [ $rc -eq 0 ]; then".data :: (' ' :: ' ' :: rLine) :: "  rc=$?".data ::
            "fi".data :: "rm -rf \"$tmpdir\"".data :: "exit $rc".data :: [[]]))))) =
      ⟨if o cLine = 0 then o rLine else o cLine, true,
        st.ran ++ setupRan ++ ([cLine] ++ (if o cLine = 0 then [rLine] else [])),
        st.staged ++ [codeLines]⟩ := by
  rw [runStep_tmpdir, runStep_src, runStep_bin]
  obtain ⟨ls2, hs⟩ := hsetup st _
  rw [hs, runStep_cat, runStep_hdoc _ _ _ _ _ hfence,
    runStep_cmd _ _ _ _ _ hCt hC, runStep_rc]
  by_cases hc0 : o cLine = 0
  · rw [runStep_if_true _ _ _ (by simpa using hc0),
      runStep_cmd _ _ _ _ _ hRt hR, runStep_rc2, runStep_fi, runStep_rm, runStep_exit]
    simp [hc0]
  · rw [runStep_if_false _ _ _ (by simpa using hc0),
      runStep_skip _ _ _ _ (by rw [hRt]; exact hR.2.2.2.2.1),
      runStep_skip _ _ _ _ (by decide),
      runStep_skip_fi, runStep_rm, runStep_exit]
    simp [hc0]

/-- The compiled-language template renders to the expected script string,
and that string splits into exactly the line list the interpreter
consumes. -/
theorem buildCompile_splitNl (ext code compilerCmd runCmd : String) (args : List String)
    (setupLines : List String) (basename : String) (appendArgs : Bool)
    (cl r0 rl setupStr : String)
    (hc : pyFormat compilerCmd stdMapping = some cl)
    (hr : pyFormat runCmd (stdMapping ++ [("args", polyArgs args)]) = some r0)
    (hrl : (if appendArgs && decide (polyArgs args ≠ "") then r0 ++ " " ++ polyArgs args
      else r0) = rl)
    (hsetupStr : (if String.intercalate "\n" setupLines ≠ ""
      then String.intercalate "\n" setupLines ++ "\n"
      else String.intercalate "\n" setupLines) = setupStr)
    (setupSplit : List (List Char))
    (hsetupSplit : ∀ b, splitNl (setupStr.data ++ b) = setupSplit ++ splitNl b)
    (hnb : ('\n' : Char) ∉ basename.data) (hnext : ('\n' : Char) ∉ ext.data)
    (hncl : ('\n' : Char) ∉ cl.data) (hnrl : ('\n' : Char) ∉ rl.data) :
    buildCompileCommand ext code compilerCmd runCmd args setupLines basename appendArgs =
      some ("tmpdir=$(mktemp -d)\n" ++ "src=\"$tmpdir/" ++ basename ++ ext ++ "\"\n"
        ++ "bin=\"$tmpdir/pf_poly_bin\"\n" ++ setupStr
        ++ "cat <<'" ++ POLY_DELIM ++ "' > \"$src\"\n" ++ ensureNewline code
        ++ POLY_DELIM ++ "\n" ++ cl ++ "\nrc=$?\n" ++ "if [ $rc -eq 0 ]; then\n"
        ++ "  " ++ rl ++ "\n" ++ "  rc=$?\n" ++ "fi\n"
        ++ "rm -rf \"$tmpdir\"\nexit $rc\n") ∧
    splitNl ("tmpdir=$(mktemp -d)\n" ++ "src=\"$tmpdir/" ++ basename ++ ext ++ "\"\n"
        ++ "bin=\"$tmpdir/pf_poly_bin\"\n" ++ setupStr
        ++ "cat <<'" ++ POLY_DELIM ++ "' > \"$src\"\n" ++ ensureNewline code
        ++ POLY_DELIM ++ "\n" ++ cl ++ "\nrc=$?\n" ++ "if [ $rc -eq 0 ]; then\n"
        ++ "  " ++ rl ++ "\n" ++ "  rc=$?\n" ++ "fi\n"
        ++ "rm -rf \"$tmpdir\"\nexit $rc\n" : String).data =
      "tmpdir=$(mktemp -d)".data ::
        ('s' :: 'r' :: 'c' :: '=' ::
          ("\"$tmpdir/".data ++ (basename.data ++ (ext.data ++ "\"".data)))) ::
        "bin=\"$tmpdir/pf_poly_bin\"".data ::
        (setupSplit ++ ("cat <<'__PFY_LANG__' > \"$src\"".data ::
          (stagedLinesOf code ++ (POLY_DELIM.data :: cl.data :: "rc=$?".data ::
            "if [ $rc -eq 0 ]; then".data :: (' ' :: ' ' :: rl.data) :: "  rc=$?".data ::
            "fi".data :: "rm -rf \"$tmpdir\"".data :: "exit $rc".data :: [[]])))) := by
  constructor
  · simp only [buildCompileCommand, hc, hr]
    rw [hsetupStr, hrl]
  · have hdata : ("tmpdir=$(mktemp -d)\n" ++ "src=\"$tmpdir/" ++ basename ++ ext ++ "\"\n"
        ++ "bin=\"$tmpdir/pf_poly_bin\"\n" ++ setupStr
        ++ "cat <<'" ++ POLY_DELIM ++ "' > \"$src\"\n" ++ ensureNewline code
        ++ POLY_DELIM ++ "\n" ++ cl ++ "\nrc=$?\n" ++ "if [ $rc -eq 0 ]; then\n"
        ++ "  " ++ rl ++ "\n" ++ "  rc=$?\n" ++ "fi\n"
        ++ "rm -rf \"$tmpdir\"\nexit $rc\n" : String).data =
        "tmpdir=$(mktemp -d)".data ++ '\n' ::
          (('s' :: 'r' :: 'c' :: '=' ::
            ("\"$tmpdir/".data ++ (basename.data ++ (ext.data ++ "\"".data)))) ++ '\n' ::
          ("bin=\"$tmpdir/pf_poly_bin\"".data ++ '\n' ::
          (setupStr.data ++
          ("cat <<'__PFY_LANG__' > \"$src\"".data ++ '\n' ::
          ((ensureNewline code).data ++
          (POLY_DELIM.data ++ '\n' ::
          (cl.data ++ '\n' ::
          ("rc=$?".data ++ '\n' ::
          ("if [ $rc -eq 0 ]; then".data ++ '\n' ::
          ((' ' :: ' ' :: rl.data) ++ '\n' ::
          ("  rc=$?".data ++ '\n' ::
          ("fi".data ++ '\n' ::
          ("rm -rf \"$tmpdir\"".data ++ '\n' ::
          ("exit $rc".data ++ '\n' :: [])))))))))))))) := by
      simp only [String.data_append, POLY_DELIM, List.cons_append, List.nil_append,
        List.append_assoc]
    rw [hdata]
    rw [splitNl_append_newline _ _ (by decide)]
    rw [splitNl_append_newline _ _ (by
      intro hm
      simp only [List.mem_cons, List.mem_append] at hm
      rcases hm with h | h | h | h | h | h | h
      · exact absurd h (by decide)
      · exact absurd h (by decide)
      · exact absurd h (by decide)
      · exact absurd h (by decide)
      · exact absurd h (by decide)
      · exact hnb h
      · rcases h with h | h
        · exact hnext h
        · exact absurd h (by decide))]
    rw [splitNl_append_newline _ _ (by decide)]
    rw [hsetupSplit]
    rw [splitNl_append_newline _ _ (by decide)]
    rw [splitNl_ensure]
    rw [splitNl_append_newline _ _ (by decide)]
    rw [splitNl_append_newline _ _ hncl]
    rw [splitNl_append_newline _ _ (by decide)]
    rw [splitNl_append_newline _ _ (by decide)]
    rw [splitNl_append_newline _ _ (by
      intro hm
      rcases hm with _ | ⟨_, hm⟩
      rcases hm with _ | ⟨_, hm⟩
      exact hnrl hm)]
    rw [splitNl_append_newline _ _ (by decide)]
    rw [splitNl_append_newline _ _ (by decide)]
    rw [splitNl_append_newline _ _ (by decide)]
    rw [splitNl_append_newline _ _ (by decide)]
    rfl

/-- A line starting with a double quote is an external command. -/
theorem plainCmd_dquote (seg : List Char) : PlainCmd ('"' :: seg) := by
  refine ⟨by simp, ?_, ?_, ?_, ?_, ?_, ?_, ?_⟩
  · simp [isPrefixCh, show heredocStartMark.data = 'c' :: "at <<'__PFY_LANG__'".data from rfl]
  · simp [show ("rc=$?" : String).data = 'r' :: "c=$?".data from rfl]
  · simp [show ("if [ $rc -eq 0 ]; then" : String).data =
      'i' :: "f [ $rc -eq 0 ]; then".data from rfl]
  · simp [show ("fi" : String).data = 'f' :: "i".data from rfl]
  · simp [show ("rm -rf \"$tmpdir\"" : String).data = 'r' :: "m -rf \"$tmpdir\"".data from rfl]
  · simp [show ("exit $rc" : String).data = 'e' :: "xit $rc".data from rfl]
  · simp [isAssignLine, List.takeWhile_cons, show isIdentChar '"' = false from rfl]

/-- A line starting with an opening parenthesis is an external command. -/
theorem plainCmd_lparen (seg : List Char) : PlainCmd ('(' :: seg) := by
  refine ⟨by simp, ?_, ?_, ?_, ?_, ?_, ?_, ?_⟩
  · simp [isPrefixCh, show heredocStartMark.data = 'c' :: "at <<'__PFY_LANG__'".data from rfl]
  · simp [show ("rc=$?" : String).data = 'r' :: "c=$?".data from rfl]
  · simp [show ("if [ $rc -eq 0 ]; then" : String).data =
      'i' :: "f [ $rc -eq 0 ]; then".data from rfl]
  · simp [show ("fi" : String).data = 'f' :: "i".data from rfl]
  · simp [show ("rm -rf \"$tmpdir\"" : String).data = 'r' :: "m -rf \"$tmpdir\"".data from rfl]
  · simp [show ("exit $rc" : String).data = 'e' :: "xit $rc".data from rfl]
  · simp [isAssignLine, List.takeWhile_cons, show isIdentChar '(' = false from rfl]

/-- An `echo` line is an external command. -/
theorem plainCmd_echo (seg : List Char) : PlainCmd ('e' :: 'c' :: 'h' :: 'o' :: ' ' :: seg) := by
  refine ⟨by simp, ?_, ?_, ?_, ?_, ?_, ?_, ?_⟩
  · simp [isPrefixCh, show heredocStartMark.data = 'c' :: "at <<'__PFY_LANG__'".data from rfl]
  · simp [show ("rc=$?" : String).data = 'r' :: "c=$?".data from rfl]
  · simp [show ("if [ $rc -eq 0 ]; then" : String).data =
      'i' :: "f [ $rc -eq 0 ]; then".data from rfl]
  · simp [show ("fi" : String).data = 'f' :: "i".data from rfl]
  · simp [show ("rm -rf \"$tmpdir\"" : String).data = 'r' :: "m -rf \"$tmpdir\"".data from rfl]
  · simp [show ("exit $rc" : String).data = 'e' :: 'x' :: "it $rc".data from rfl]
  · simp [isAssignLine, List.takeWhile_cons, List.dropWhile_cons,
      show isIdentChar 'e' = true from rfl, show isIdentChar 'c' = true from rfl,
      show isIdentChar 'h' = true from rfl, show isIdentChar 'o' = true from rfl,
      show isIdentChar ' ' = false from rfl]

/-- Build-and-run for the compiled-language template: rendering succeeds
and the payload's run stages the snippet, runs setup and compiler, gates
the runner on the compiler's success, always removes the temporary
directory, and exits with the compiler's code on failure, the runner's
otherwise. -/
theorem buildCompile_run (ext code compilerCmd runCmd : String) (args : List String)
    (setupLines : List String) (basename : String) (appendArgs : Bool)
    (cl r0 rl setupStr : String) (setupSplit setupRan : List (List Char))
    (oracle : List Char → Int)
    (hc : pyFormat compilerCmd stdMapping = some cl)
    (hr : pyFormat runCmd (stdMapping ++ [("args", polyArgs args)]) = some r0)
    (hrl : (if appendArgs && decide (polyArgs args ≠ "") then r0 ++ " " ++ polyArgs args
      else r0) = rl)
    (hsetupStr : (if String.intercalate "\n" setupLines ≠ ""
      then String.intercalate "\n" setupLines ++ "\n"
      else String.intercalate "\n" setupLines) = setupStr)
    (hsetupSplit : ∀ b, splitNl (setupStr.data ++ b) = setupSplit ++ splitNl b)
    (hsetupRun : ∀ (st2 : RIState) (rest2 : List (List Char)), ∃ ls2 : Int,
      runLines oracle .norm st2 (setupSplit ++ rest2) =
        runLines oracle .norm ⟨ls2, st2.rcVar, st2.removedTmp, st2.ran ++ setupRan, st2.staged⟩
          rest2)
    (hnb : ('\n' : Char) ∉ basename.data) (hnext : ('\n' : Char) ∉ ext.data)
    (hncl : ('\n' : Char) ∉ cl.data) (hnrl : ('\n' : Char) ∉ rl.data)
    (hfence : NoFence code)
    (hCt : trimSp cl.data = cl.data) (hC : PlainCmd cl.data)
    (hRt : trimSp (' ' :: ' ' :: rl.data) = rl.data) (hR : PlainCmd rl.data) :
    ∃ script, buildCompileCommand ext code compilerCmd runCmd args setupLines basename
        appendArgs = some script ∧
      runScript oracle script =
        ⟨if oracle cl.data = 0 then oracle rl.data else oracle cl.data, true,
          setupRan ++ ([cl.data] ++ (if oracle cl.data = 0 then [rl.data] else [])),
          [stagedLinesOf code]⟩ := by
  obtain ⟨h1, h2⟩ := buildCompile_splitNl ext code compilerCmd runCmd args setupLines
    basename appendArgs cl r0 rl setupStr hc hr hrl hsetupStr setupSplit hsetupSplit
    hnb hnext hncl hnrl
  refine ⟨_, h1, ?_⟩
  unfold runScript
  rw [h2]
  have hfence2 : POLY_DELIM.data ∉ stagedLinesOf code := by
    intro hm
    exact hfence ((List.dropLast_sublist _).subset hm)
  have hm := runLines_compile_template oracle ⟨0, 0, false, [], []⟩
    ("\"$tmpdir/".data ++ (basename.data ++ (ext.data ++ "\"".data)))
    setupSplit setupRan (stagedLinesOf code) cl.data rl.data hfence2 hCt hC hRt hR hsetupRun
  rw [hm]
  simp


/-- C5: for every compiled-language profile of the registry, for every
snippet (not containing the fence line), argument list (newline-free once
quoted) and behaviour of the external toolchain, the registry builder
renders a payload whose run stages the snippet via the fenced
here-document, runs the profile setup and the substituted compiler
command, runs the substituted run command (with quoted arguments
forwarded) only when the compiler exited zero, removes the temporary
directory on every path, and exits with the compiler's code on compile
failure and the runner's code otherwise. -/
theorem c5_compile_profile :
    ∀ (name : String) (p : CompileParams), (name, p) ∈ compiledProfileEntries →
    ∀ (code : String) (args : List String) (oracle : List Char → Int),
      NoFence code → ('\n' : Char) ∉ (polyArgs args).data →
      ∃ b script, dlookup POLYGLOT_LANGS name = some b ∧ b code args = some script ∧
        runScript oracle script =
          ⟨if oracle (compilerLineOf p).data = 0 then oracle (runnerLineOf p args).data
            else oracle (compilerLineOf p).data, true,
            setupCmdsOf p.setupLines ++ ([(compilerLineOf p).data] ++
              (if oracle (compilerLineOf p).data = 0 then [(runnerLineOf p args).data]
                else [])),
            [stagedLinesOf code]⟩ := by
  intro name p he code args oracle hnf hargs
  simp only [compiledProfileEntries, List.mem_cons, List.not_mem_nil, or_false,
    Prod.mk.injEq] at he
  rcases he with h1 | h2 | h3 | h4 | h5 | h6 | h7 | h8 | h9 | h10 | h11 | h12 | h13 | h14 | h15 | h16
  · -- rust
    obtain ⟨rfl, rfl⟩ := h1
    have hr0 : pyFormat "\x7bbin\x7d" (stdMapping ++ [("args", polyArgs args)]) =
        some "\"$bin\"" := rfl
    have hclE : compilerLineOf (⟨".rs", "rustc {src} -o {bin}", "\x7bbin\x7d", [], "pf_poly", true⟩ : CompileParams) = "rustc \"$src\" -o \"$bin\"" := rfl
    by_cases hA : polyArgs args = ""
    · have hrlE : runnerLineOf (⟨".rs", "rustc {src} -o {bin}", "\x7bbin\x7d", [], "pf_poly", true⟩ : CompileParams) args = "\"$bin\"" := by
        simp only [runnerLineOf, hr0, Option.getD_some]
        simp [hA]
      obtain ⟨script, h1, h2⟩ := buildCompile_run ".rs" code "rustc {src} -o {bin}" "\x7bbin\x7d" args [] "pf_poly" true
        "rustc \"$src\" -o \"$bin\"" "\"$bin\"" "\"$bin\"" "" [] [] oracle rfl hr0 (by simp [hA]) rfl
        (fun b => rfl) (fun st2 rest2 => ⟨st2.lastStatus, by simp⟩)
        (by decide) (by decide) (by decide) (by decide) hnf (by decide) (by decide)
        (by decide) (by decide)
      refine ⟨_, script, rfl, h1, ?_⟩
      rw [h2, hclE, hrlE]
      rfl
    · have hrlE : runnerLineOf (⟨".rs", "rustc {src} -o {bin}", "\x7bbin\x7d", [], "pf_poly", true⟩ : CompileParams) args = "\"$bin\" " ++ polyArgs args := by
        simp only [runnerLineOf, hr0, Option.getD_some]
        simp [hA]
      have hrld : ("\"$bin\" " ++ polyArgs args).data =
          '"' :: ('$' :: 'b' :: 'i' :: 'n' :: '"' :: ' ' :: (polyArgs args).data) := rfl
      obtain ⟨script, h1, h2⟩ := buildCompile_run ".rs" code "rustc {src} -o {bin}" "\x7bbin\x7d" args [] "pf_poly" true
        "rustc \"$src\" -o \"$bin\"" "\"$bin\"" ("\"$bin\" " ++ polyArgs args) "" [] [] oracle rfl hr0
        (by simp [hA]) rfl (fun b => rfl) (fun st2 rest2 => ⟨st2.lastStatus, by simp⟩)
        (by decide) (by decide) (by decide)
        (by rw [show ("\"$bin\" " ++ polyArgs args).data =
              "\"$bin\" ".data ++ (polyArgs args).data from rfl]
            intro hm
            rcases List.mem_append.mp hm with h | h
            · exact absurd h (by decide)
            · exact hargs h)
        hnf (by decide) (by decide)
        (by rw [hrld]; rfl)
        (by rw [hrld]; exact plainCmd_dquote _)
      refine ⟨_, script, rfl, h1, ?_⟩
      rw [h2, hclE, hrlE]
      rfl
  · -- c
    obtain ⟨rfl, rfl⟩ := h2
    have hr0 : pyFormat "\x7bbin\x7d" (stdMapping ++ [("args", polyArgs args)]) =
        some "\"$bin\"" := rfl
    have hclE : compilerLineOf (⟨".c", "clang -x c {src} -o {bin}", "\x7bbin\x7d", [], "pf_poly", true⟩ : CompileParams) = "clang -x c \"$src\" -o \"$bin\"" := rfl
    by_cases hA : polyArgs args = ""
    · have hrlE : runnerLineOf (⟨".c", "clang -x c {src} -o {bin}", "\x7bbin\x7d", [], "pf_poly", true⟩ : CompileParams) args = "\"$bin\"" := by
        simp only [runnerLineOf, hr0, Option.getD_some]
        simp [hA]
      obtain ⟨script, h1, h2⟩ := buildCompile_run ".c" code "clang -x c {src} -o {bin}" "\x7bbin\x7d" args [] "pf_poly" true
        "clang -x c \"$src\" -o \"$bin\"" "\"$bin\"" "\"$bin\"" "" [] [] oracle rfl hr0 (by simp [hA]) rfl
        (fun b => rfl) (fun st2 rest2 => ⟨st2.lastStatus, by simp⟩)
        (by decide) (by decide) (by decide) (by decide) hnf (by decide) (by decide)
        (by decide) (by decide)
      refine ⟨_, script, rfl, h1, ?_⟩
      rw [h2, hclE, hrlE]
      rfl
    · have hrlE : runnerLineOf (⟨".c", "clang -x c {src} -o {bin}", "\x7bbin\x7d", [], "pf_poly", true⟩ : CompileParams) args = "\"$bin\" " ++ polyArgs args := by
        simp only [runnerLineOf, hr0, Option.getD_some]
        simp [hA]
      have hrld : ("\"$bin\" " ++ polyArgs args).data =
          '"' :: ('$' :: 'b' :: 'i' :: 'n' :: '"' :: ' ' :: (polyArgs args).data) := rfl
      obtain ⟨script, h1, h2⟩ := buildCompile_run ".c" code "clang -x c {src} -o {bin}" "\x7bbin\x7d" args [] "pf_poly" true
        "clang -x c \"$src\" -o \"$bin\"" "\"$bin\"" ("\"$bin\" " ++ polyArgs args) "" [] [] oracle rfl hr0
        (by simp [hA]) rfl (fun b => rfl) (fun st2 rest2 => ⟨st2.lastStatus, by simp⟩)
        (by decide) (by decide) (by decide)
        (by rw [show ("\"$bin\" " ++ polyArgs args).data =
              "\"$bin\" ".data ++ (polyArgs args).data from rfl]
            intro hm
            rcases List.mem_append.mp hm with h | h
            · exact absurd h (by decide)
            · exact hargs h)
        hnf (by decide) (by decide)
        (by rw [hrld]; rfl)
        (by rw [hrld]; exact plainCmd_dquote _)
      refine ⟨_, script, rfl, h1, ?_⟩
      rw [h2, hclE, hrlE]
      rfl
  · -- cpp
    obtain ⟨rfl, rfl⟩ := h3
    have hr0 : pyFormat "\x7bbin\x7d" (stdMapping ++ [("args", polyArgs args)]) =
        some "\"$bin\"" := rfl
    have hclE : compilerLineOf (⟨".cc", "clang++ {src} -o {bin}", "\x7bbin\x7d", [], "pf_poly", true⟩ : CompileParams) = "clang++ \"$src\" -o \"$bin\"" := rfl
    by_cases hA : polyArgs args = ""
    · have hrlE : runnerLineOf (⟨".cc", "clang++ {src} -o {bin}", "\x7bbin\x7d", [], "pf_poly", true⟩ : CompileParams) args = "\"$bin\"" := by
        simp only [runnerLineOf, hr0, Option.getD_some]
        simp [hA]
      obtain ⟨script, h1, h2⟩ := buildCompile_run ".cc" code "clang++ {src} -o {bin}" "\x7bbin\x7d" args [] "pf_poly" true
        "clang++ \"$src\" -o \"$bin\"" "\"$bin\"" "\"$bin\"" "" [] [] oracle rfl hr0 (by simp [hA]) rfl
        (fun b => rfl) (fun st2 rest2 => ⟨st2.lastStatus, by simp⟩)
        (by decide) (by decide) (by decide) (by decide) hnf (by decide) (by decide)
        (by decide) (by decide)
      refine ⟨_, script, rfl, h1, ?_⟩
      rw [h2, hclE, hrlE]
      rfl
    · have hrlE : runnerLineOf (⟨".cc", "clang++ {src} -o {bin}", "\x7bbin\x7d", [], "pf_poly", true⟩ : CompileParams) args = "\"$bin\" " ++ polyArgs args := by
        simp only [runnerLineOf, hr0, Option.getD_some]
        simp [hA]
      have hrld : ("\"$bin\" " ++ polyArgs args).data =
          '"' :: ('$' :: 'b' :: 'i' :: 'n' :: '"' :: ' ' :: (polyArgs args).data) := rfl
      obtain ⟨script, h1, h2⟩ := buildCompile_run ".cc" code "clang++ {src} -o {bin}" "\x7bbin\x7d" args [] "pf_poly" true
        "clang++ \"$src\" -o \"$bin\"" "\"$bin\"" ("\"$bin\" " ++ polyArgs args) "" [] [] oracle rfl hr0
        (by simp [hA]) rfl (fun b => rfl) (fun st2 rest2 => ⟨st2.lastStatus, by simp⟩)
        (by decide) (by decide) (by decide)
        (by rw [show ("\"$bin\" " ++ polyArgs args).data =
              "\"$bin\" ".data ++ (polyArgs args).data from rfl]
            intro hm
            rcases List.mem_append.mp hm with h | h
            · exact absurd h (by decide)
            · exact hargs h)
        hnf (by decide) (by decide)
        (by rw [hrld]; rfl)
        (by rw [hrld]; exact plainCmd_dquote _)
      refine ⟨_, script, rfl, h1, ?_⟩
      rw [h2, hclE, hrlE]
      rfl
  · -- c-llvm
    obtain ⟨rfl, rfl⟩ := h4
    have hr0 : pyFormat "echo '(LLVM IR generated with O3 optimization)'" (stdMapping ++ [("args", polyArgs args)]) =
        some "echo '(LLVM IR generated with O3 optimization)'" := rfl
    have hclE : compilerLineOf (⟨".c", "clang -x c -O3 -S -emit-llvm {src} -o {bin}.ll && cat {bin}.ll", "echo '(LLVM IR generated with O3 optimization)'", [], "pf_poly", true⟩ : CompileParams) = "clang -x c -O3 -S -emit-llvm \"$src\" -o \"$bin\".ll && cat \"$bin\".ll" := rfl
    by_cases hA : polyArgs args = ""
    · have hrlE : runnerLineOf (⟨".c", "clang -x c -O3 -S -emit-llvm {src} -o {bin}.ll && cat {bin}.ll", "echo '(LLVM IR generated with O3 optimization)'", [], "pf_poly", true⟩ : CompileParams) args = "echo '(LLVM IR generated with O3 optimization)'" := by
        simp only [runnerLineOf, hr0, Option.getD_some]
        simp [hA]
      obtain ⟨script, h1, h2⟩ := buildCompile_run ".c" code "clang -x c -O3 -S -emit-llvm {src} -o {bin}.ll && cat {bin}.ll" "echo '(LLVM IR generated with O3 optimization)'" args [] "pf_poly" true
        "clang -x c -O3 -S -emit-llvm \"$src\" -o \"$bin\".ll && cat \"$bin\".ll" "echo '(LLVM IR generated with O3 optimization)'" "echo '(LLVM IR generated with O3 optimization)'" "" [] [] oracle rfl hr0 (by simp [hA]) rfl
        (fun b => rfl) (fun st2 rest2 => ⟨st2.lastStatus, by simp⟩)
        (by decide) (by decide) (by decide) (by decide) hnf (by decide) (by decide)
        (by decide) (by decide)
      refine ⟨_, script, rfl, h1, ?_⟩
      rw [h2, hclE, hrlE]
      rfl
    · have hrlE : runnerLineOf (⟨".c", "clang -x c -O3 -S -emit-llvm {src} -o {bin}.ll && cat {bin}.ll", "echo '(LLVM IR generated with O3 optimization)'", [], "pf_poly", true⟩ : CompileParams) args = "echo '(LLVM IR generated with O3 optimization)' " ++ polyArgs args := by
        simp only [runnerLineOf, hr0, Option.getD_some]
        simp [hA]
      have hrld : ("echo '(LLVM IR generated with O3 optimization)' " ++ polyArgs args).data =
          'e' :: 'c' :: 'h' :: 'o' :: ' ' :: ("'(LLVM IR generated with O3 optimization)' ".data ++ (polyArgs args).data) := rfl
      obtain ⟨script, h1, h2⟩ := buildCompile_run ".c" code "clang -x c -O3 -S -emit-llvm {src} -o {bin}.ll && cat {bin}.ll" "echo '(LLVM IR generated with O3 optimization)'" args [] "pf_poly" true
        "clang -x c -O3 -S -emit-llvm \"$src\" -o \"$bin\".ll && cat \"$bin\".ll" "echo '(LLVM IR generated with O3 optimization)'" ("echo '(LLVM IR generated with O3 optimization)' " ++ polyArgs args) "" [] [] oracle rfl hr0
        (by simp [hA]) rfl (fun b => rfl) (fun st2 rest2 => ⟨st2.lastStatus, by simp⟩)
        (by decide) (by decide) (by decide)
        (by rw [show ("echo '(LLVM IR generated with O3 optimization)' " ++ polyArgs args).data =
              "echo '(LLVM IR generated with O3 optimization)' ".data ++ (polyArgs args).data from rfl]
            intro hm
            rcases List.mem_append.mp hm with h | h
            · exact absurd h (by decide)
            · exact hargs h)
        hnf (by decide) (by decide)
        (by rw [hrld]; rfl)
        (by rw [hrld]; exact plainCmd_echo _)
      refine ⟨_, script, rfl, h1, ?_⟩
      rw [h2, hclE, hrlE]
      rfl
  · -- cpp-llvm
    obtain ⟨rfl, rfl⟩ := h5
    have hr0 : pyFormat "echo '(LLVM IR generated with O3 optimization)'" (stdMapping ++ [("args", polyArgs args)]) =
        some "echo '(LLVM IR generated with O3 optimization)'" := rfl
    have hclE : compilerLineOf (⟨".cc", "clang++ -O3 -S -emit-llvm {src} -o {bin}.ll && cat {bin}.ll", "echo '(LLVM IR generated with O3 optimization)'", [], "pf_poly", true⟩ : CompileParams) = "clang++ -O3 -S -emit-llvm \"$src\" -o \"$bin\".ll && cat \"$bin\".ll" := rfl
    by_cases hA : polyArgs args = ""
    · have hrlE : runnerLineOf (⟨".cc", "clang++ -O3 -S -emit-llvm {src} -o {bin}.ll && cat {bin}.ll", "echo '(LLVM IR generated with O3 optimization)'", [], "pf_poly", true⟩ : CompileParams) args = "echo '(LLVM IR generated with O3 optimization)'" := by
        simp only [runnerLineOf, hr0, Option.getD_some]
        simp [hA]
      obtain ⟨script, h1, h2⟩ := buildCompile_run ".cc" code "clang++ -O3 -S -emit-llvm {src} -o {bin}.ll && cat {bin}.ll" "echo '(LLVM IR generated with O3 optimization)'" args [] "pf_poly" true
        "clang++ -O3 -S -emit-llvm \"$src\" -o \"$bin\".ll && cat \"$bin\".ll" "echo '(LLVM IR generated with O3 optimization)'" "echo '(LLVM IR generated with O3 optimization)'" "" [] [] oracle rfl hr0 (by simp [hA]) rfl
        (fun b => rfl) (fun st2 rest2 => ⟨st2.lastStatus, by simp⟩)
        (by decide) (by decide) (by decide) (by decide) hnf (by decide) (by decide)
        (by decide) (by decide)
      refine ⟨_, script, rfl, h1, ?_⟩
      rw [h2, hclE, hrlE]
      rfl
    · have hrlE : runnerLineOf (⟨".cc", "clang++ -O3 -S -emit-llvm {src} -o {bin}.ll && cat {bin}.ll", "echo '(LLVM IR generated with O3 optimization)'", [], "pf_poly", true⟩ : CompileParams) args = "echo '(LLVM IR generated with O3 optimization)' " ++ polyArgs args := by
        simp only [runnerLineOf, hr0, Option.getD_some]
        simp [hA]
      have hrld : ("echo '(LLVM IR generated with O3 optimization)' " ++ polyArgs args).data =
          'e' :: 'c' :: 'h' :: 'o' :: ' ' :: ("'(LLVM IR generated with O3 optimization)' ".data ++ (polyArgs args).data) := rfl
      obtain ⟨script, h1, h2⟩ := buildCompile_run ".cc" code "clang++ -O3 -S -emit-llvm {src} -o {bin}.ll && cat {bin}.ll" "echo '(LLVM IR generated with O3 optimization)'" args [] "pf_poly" true
        "clang++ -O3 -S -emit-llvm \"$src\" -o \"$bin\".ll && cat \"$bin\".ll" "echo '(LLVM IR generated with O3 optimization)'" ("echo '(LLVM IR generated with O3 optimization)' " ++ polyArgs args) "" [] [] oracle rfl hr0
        (by simp [hA]) rfl (fun b => rfl) (fun st2 rest2 => ⟨st2.lastStatus, by simp⟩)
        (by decide) (by decide) (by decide)
        (by rw [show ("echo '(LLVM IR generated with O3 optimization)' " ++ polyArgs args).data =
              "echo '(LLVM IR generated with O3 optimization)' ".data ++ (polyArgs args).data from rfl]
            intro hm
            rcases List.mem_append.mp hm with h | h
            · exact absurd h (by decide)
            · exact hargs h)
        hnf (by decide) (by decide)
        (by rw [hrld]; rfl)
        (by rw [hrld]; exact plainCmd_echo _)
      refine ⟨_, script, rfl, h1, ?_⟩
      rw [h2, hclE, hrlE]
      rfl
  · -- c-llvm-bc
    obtain ⟨rfl, rfl⟩ := h6
    have hr0 : pyFormat "echo '(LLVM bitcode generated with O3 optimization)'" (stdMapping ++ [("args", polyArgs args)]) =
        some "echo '(LLVM bitcode generated with O3 optimization)'" := rfl
    have hclE : compilerLineOf (⟨".c", "clang -x c -O3 -c -emit-llvm {src} -o {bin}.bc && llvm-dis {bin}.bc -o {bin}.ll && cat {bin}.ll", "echo '(LLVM bitcode generated with O3 optimization)'", [], "pf_poly", true⟩ : CompileParams) = "clang -x c -O3 -c -emit-llvm \"$src\" -o \"$bin\".bc && llvm-dis \"$bin\".bc -o \"$bin\".ll && cat \"$bin\".ll" := rfl
    by_cases hA : polyArgs args = ""
    · have hrlE : runnerLineOf (⟨".c", "clang -x c -O3 -c -emit-llvm {src} -o {bin}.bc && llvm-dis {bin}.bc -o {bin}.ll && cat {bin}.ll", "echo '(LLVM bitcode generated with O3 optimization)'", [], "pf_poly", true⟩ : CompileParams) args = "echo '(LLVM bitcode generated with O3 optimization)'" := by
        simp only [runnerLineOf, hr0, Option.getD_some]
        simp [hA]
      obtain ⟨script, h1, h2⟩ := buildCompile_run ".c" code "clang -x c -O3 -c -emit-llvm {src} -o {bin}.bc && llvm-dis {bin}.bc -o {bin}.ll && cat {bin}.ll" "echo '(LLVM bitcode generated with O3 optimization)'" args [] "pf_poly" true
        "clang -x c -O3 -c -emit-llvm \"$src\" -o \"$bin\".bc && llvm-dis \"$bin\".bc -o \"$bin\".ll && cat \"$bin\".ll" "echo '(LLVM bitcode generated with O3 optimization)'" "echo '(LLVM bitcode generated with O3 optimization)'" "" [] [] oracle rfl hr0 (by simp [hA]) rfl
        (fun b => rfl) (fun st2 rest2 => ⟨st2.lastStatus, by simp⟩)
        (by decide) (by decide) (by decide) (by decide) hnf (by decide) (by decide)
        (by decide) (by decide)
      refine ⟨_, script, rfl, h1, ?_⟩
      rw [h2, hclE, hrlE]
      rfl
    · have hrlE : runnerLineOf (⟨".c", "clang -x c -O3 -c -emit-llvm {src} -o {bin}.bc && llvm-dis {bin}.bc -o {bin}.ll && cat {bin}.ll", "echo '(LLVM bitcode generated with O3 optimization)'", [], "pf_poly", true⟩ : CompileParams) args = "echo '(LLVM bitcode generated with O3 optimization)' " ++ polyArgs args := by
        simp only [runnerLineOf, hr0, Option.getD_some]
        simp [hA]
      have hrld : ("echo '(LLVM bitcode generated with O3 optimization)' " ++ polyArgs args).data =
          'e' :: 'c' :: 'h' :: 'o' :: ' ' :: ("'(LLVM bitcode generated with O3 optimization)' ".data ++ (polyArgs args).data) := rfl
      obtain ⟨script, h1, h2⟩ := buildCompile_run ".c" code "clang -x c -O3 -c -emit-llvm {src} -o {bin}.bc && llvm-dis {bin}.bc -o {bin}.ll && cat {bin}.ll" "echo '(LLVM bitcode generated with O3 optimization)'" args [] "pf_poly" true
        "clang -x c -O3 -c -emit-llvm \"$src\" -o \"$bin\".bc && llvm-dis \"$bin\".bc -o \"$bin\".ll && cat \"$bin\".ll" "echo '(LLVM bitcode generated with O3 optimization)'" ("echo '(LLVM bitcode generated with O3 optimization)' " ++ polyArgs args) "" [] [] oracle rfl hr0
        (by simp [hA]) rfl (fun b => rfl) (fun st2 rest2 => ⟨st2.lastStatus, by simp⟩)
        (by decide) (by decide) (by decide)
        (by rw [show ("echo '(LLVM bitcode generated with O3 optimization)' " ++ polyArgs args).data =
              "echo '(LLVM bitcode generated with O3 optimization)' ".data ++ (polyArgs args).data from rfl]
            intro hm
            rcases List.mem_append.mp hm with h | h
            · exact absurd h (by decide)
            · exact hargs h)
        hnf (by decide) (by decide)
        (by rw [hrld]; rfl)
        (by rw [hrld]; exact plainCmd_echo _)
      refine ⟨_, script, rfl, h1, ?_⟩
      rw [h2, hclE, hrlE]
      rfl
  · -- cpp-llvm-bc
    obtain ⟨rfl, rfl⟩ := h7
    have hr0 : pyFormat "echo '(LLVM bitcode generated with O3 optimization)'" (stdMapping ++ [("args", polyArgs args)]) =
        some "echo '(LLVM bitcode generated with O3 optimization)'" := rfl
    have hclE : compilerLineOf (⟨".cc", "clang++ -O3 -c -emit-llvm {src} -o {bin}.bc && llvm-dis {bin}.bc -o {bin}.ll && cat {bin}.ll", "echo '(LLVM bitcode generated with O3 optimization)'", [], "pf_poly", true⟩ : CompileParams) = "clang++ -O3 -c -emit-llvm \"$src\" -o \"$bin\".bc && llvm-dis \"$bin\".bc -o \"$bin\".ll && cat \"$bin\".ll" := rfl
    by_cases hA : polyArgs args = ""
    · have hrlE : runnerLineOf (⟨".cc", "clang++ -O3 -c -emit-llvm {src} -o {bin}.bc && llvm-dis {bin}.bc -o {bin}.ll && cat {bin}.ll", "echo '(LLVM bitcode generated with O3 optimization)'", [], "pf_poly", true⟩ : CompileParams) args = "echo '(LLVM bitcode generated with O3 optimization)'" := by
        simp only [runnerLineOf, hr0, Option.getD_some]
        simp [hA]
      obtain ⟨script, h1, h2⟩ := buildCompile_run ".cc" code "clang++ -O3 -c -emit-llvm {src} -o {bin}.bc && llvm-dis {bin}.bc -o {bin}.ll && cat {bin}.ll" "echo '(LLVM bitcode generated with O3 optimization)'" args [] "pf_poly" true
        "clang++ -O3 -c -emit-llvm \"$src\" -o \"$bin\".bc && llvm-dis \"$bin\".bc -o \"$bin\".ll && cat \"$bin\".ll" "echo '(LLVM bitcode generated with O3 optimization)'" "echo '(LLVM bitcode generated with O3 optimization)'" "" [] [] oracle rfl hr0 (by simp [hA]) rfl
        (fun b => rfl) (fun st2 rest2 => ⟨st2.lastStatus, by simp⟩)
        (by decide) (by decide) (by decide) (by decide) hnf (by decide) (by decide)
        (by decide) (by decide)
      refine ⟨_, script, rfl, h1, ?_⟩
      rw [h2, hclE, hrlE]
      rfl
    · have hrlE : runnerLineOf (⟨".cc", "clang++ -O3 -c -emit-llvm {src} -o {bin}.bc && llvm-dis {bin}.bc -o {bin}.ll && cat {bin}.ll", "echo '(LLVM bitcode generated with O3 optimization)'", [], "pf_poly", true⟩ : CompileParams) args = "echo '(LLVM bitcode generated with O3 optimization)' " ++ polyArgs args := by
        simp only [runnerLineOf, hr0, Option.getD_some]
        simp [hA]
      have hrld : ("echo '(LLVM bitcode generated with O3 optimization)' " ++ polyArgs args).data =
          'e' :: 'c' :: 'h' :: 'o' :: ' ' :: ("'(LLVM bitcode generated with O3 optimization)' ".data ++ (polyArgs args).data) := rfl
      obtain ⟨script, h1, h2⟩ := buildCompile_run ".cc" code "clang++ -O3 -c -emit-llvm {src} -o {bin}.bc && llvm-dis {bin}.bc -o {bin}.ll && cat {bin}.ll" "echo '(LLVM bitcode generated with O3 optimization)'" args [] "pf_poly" true
        "clang++ -O3 -c -emit-llvm \"$src\" -o \"$bin\".bc && llvm-dis \"$bin\".bc -o \"$bin\".ll && cat \"$bin\".ll" "echo '(LLVM bitcode generated with O3 optimization)'" ("echo '(LLVM bitcode generated with O3 optimization)' " ++ polyArgs args) "" [] [] oracle rfl hr0
        (by simp [hA]) rfl (fun b => rfl) (fun st2 rest2 => ⟨st2.lastStatus, by simp⟩)
        (by decide) (by decide) (by decide)
        (by rw [show ("echo '(LLVM bitcode generated with O3 optimization)' " ++ polyArgs args).data =
              "echo '(LLVM bitcode generated with O3 optimization)' ".data ++ (polyArgs args).data from rfl]
            intro hm
            rcases List.mem_append.mp hm with h | h
            · exact absurd h (by decide)
            · exact hargs h)
        hnf (by decide) (by decide)
        (by rw [hrld]; rfl)
        (by rw [hrld]; exact plainCmd_echo _)
      refine ⟨_, script, rfl, h1, ?_⟩
      rw [h2, hclE, hrlE]
      rfl
  · -- fortran
    obtain ⟨rfl, rfl⟩ := h8
    have hr0 : pyFormat "\x7bbin\x7d" (stdMapping ++ [("args", polyArgs args)]) =
        some "\"$bin\"" := rfl
    have hclE : compilerLineOf (⟨".f90", "gfortran {src} -o {bin}", "\x7bbin\x7d", [], "pf_poly", true⟩ : CompileParams) = "gfortran \"$src\" -o \"$bin\"" := rfl
    by_cases hA : polyArgs args = ""
    · have hrlE : runnerLineOf (⟨".f90", "gfortran {src} -o {bin}", "\x7bbin\x7d", [], "pf_poly", true⟩ : CompileParams) args = "\"$bin\"" := by
        simp only [runnerLineOf, hr0, Option.getD_some]
        simp [hA]
      obtain ⟨script, h1, h2⟩ := buildCompile_run ".f90" code "gfortran {src} -o {bin}" "\x7bbin\x7d" args [] "pf_poly" true
        "gfortran \"$src\" -o \"$bin\"" "\"$bin\"" "\"$bin\"" "" [] [] oracle rfl hr0 (by simp [hA]) rfl
        (fun b => rfl) (fun st2 rest2 => ⟨st2.lastStatus, by simp⟩)
        (by decide) (by decide) (by decide) (by decide) hnf (by decide) (by decide)
        (by decide) (by decide)
      refine ⟨_, script, rfl, h1, ?_⟩
      rw [h2, hclE, hrlE]
      rfl
    · have hrlE : runnerLineOf (⟨".f90", "gfortran {src} -o {bin}", "\x7bbin\x7d", [], "pf_poly", true⟩ : CompileParams) args = "\"$bin\" " ++ polyArgs args := by
        simp only [runnerLineOf, hr0, Option.getD_some]
        simp [hA]
      have hrld : ("\"$bin\" " ++ polyArgs args).data =
          '"' :: ('$' :: 'b' :: 'i' :: 'n' :: '"' :: ' ' :: (polyArgs args).data) := rfl
      obtain ⟨script, h1, h2⟩ := buildCompile_run ".f90" code "gfortran {src} -o {bin}" "\x7bbin\x7d" args [] "pf_poly" true
        "gfortran \"$src\" -o \"$bin\"" "\"$bin\"" ("\"$bin\" " ++ polyArgs args) "" [] [] oracle rfl hr0
        (by simp [hA]) rfl (fun b => rfl) (fun st2 rest2 => ⟨st2.lastStatus, by simp⟩)
        (by decide) (by decide) (by decide)
        (by rw [show ("\"$bin\" " ++ polyArgs args).data =
              "\"$bin\" ".data ++ (polyArgs args).data from rfl]
            intro hm
            rcases List.mem_append.mp hm with h | h
            · exact absurd h (by decide)
            · exact hargs h)
        hnf (by decide) (by decide)
        (by rw [hrld]; rfl)
        (by rw [hrld]; exact plainCmd_dquote _)
      refine ⟨_, script, rfl, h1, ?_⟩
      rw [h2, hclE, hrlE]
      rfl
  · -- fortran-llvm
    obtain ⟨rfl, rfl⟩ := h9
    have hr0 : pyFormat "echo '(LLVM IR generated with O3 optimization)'" (stdMapping ++ [("args", polyArgs args)]) =
        some "echo '(LLVM IR generated with O3 optimization)'" := rfl
    have hclE : compilerLineOf (⟨".f90", "flang -O3 {src} -S -emit-llvm -o {bin}.ll && cat {bin}.ll", "echo '(LLVM IR generated with O3 optimization)'", [], "pf_poly", true⟩ : CompileParams) = "flang -O3 \"$src\" -S -emit-llvm -o \"$bin\".ll && cat \"$bin\".ll" := rfl
    by_cases hA : polyArgs args = ""
    · have hrlE : runnerLineOf (⟨".f90", "flang -O3 {src} -S -emit-llvm -o {bin}.ll && cat {bin}.ll", "echo '(LLVM IR generated with O3 optimization)'", [], "pf_poly", true⟩ : CompileParams) args = "echo '(LLVM IR generated with O3 optimization)'" := by
        simp only [runnerLineOf, hr0, Option.getD_some]
        simp [hA]
      obtain ⟨script, h1, h2⟩ := buildCompile_run ".f90" code "flang -O3 {src} -S -emit-llvm -o {bin}.ll && cat {bin}.ll" "echo '(LLVM IR generated with O3 optimization)'" args [] "pf_poly" true
        "flang -O3 \"$src\" -S -emit-llvm -o \"$bin\".ll && cat \"$bin\".ll" "echo '(LLVM IR generated with O3 optimization)'" "echo '(LLVM IR generated with O3 optimization)'" "" [] [] oracle rfl hr0 (by simp [hA]) rfl
        (fun b => rfl) (fun st2 rest2 => ⟨st2.lastStatus, by simp⟩)
        (by decide) (by decide) (by decide) (by decide) hnf (by decide) (by decide)
        (by decide) (by decide)
      refine ⟨_, script, rfl, h1, ?_⟩
      rw [h2, hclE, hrlE]
      rfl
    · have hrlE : runnerLineOf (⟨".f90", "flang -O3 {src} -S -emit-llvm -o {bin}.ll && cat {bin}.ll", "echo '(LLVM IR generated with O3 optimization)'", [], "pf_poly", true⟩ : CompileParams) args = "echo '(LLVM IR generated with O3 optimization)' " ++ polyArgs args := by
        simp only [runnerLineOf, hr0, Option.getD_some]
        simp [hA]
      have hrld : ("echo '(LLVM IR generated with O3 optimization)' " ++ polyArgs args).data =
          'e' :: 'c' :: 'h' :: 'o' :: ' ' :: ("'(LLVM IR generated with O3 optimization)' ".data ++ (polyArgs args).data) := rfl
      obtain ⟨script, h1, h2⟩ := buildCompile_run ".f90" code "flang -O3 {src} -S -emit-llvm -o {bin}.ll && cat {bin}.ll" "echo '(LLVM IR generated with O3 optimization)'" args [] "pf_poly" true
        "flang -O3 \"$src\" -S -emit-llvm -o \"$bin\".ll && cat \"$bin\".ll" "echo '(LLVM IR generated with O3 optimization)'" ("echo '(LLVM IR generated with O3 optimization)' " ++ polyArgs args) "" [] [] oracle rfl hr0
        (by simp [hA]) rfl (fun b => rfl) (fun st2 rest2 => ⟨st2.lastStatus, by simp⟩)
        (by decide) (by decide) (by decide)
        (by rw [show ("echo '(LLVM IR generated with O3 optimization)' " ++ polyArgs args).data =
              "echo '(LLVM IR generated with O3 optimization)' ".data ++ (polyArgs args).data from rfl]
            intro hm
            rcases List.mem_append.mp hm with h | h
            · exact absurd h (by decide)
            · exact hargs h)
        hnf (by decide) (by decide)
        (by rw [hrld]; rfl)
        (by rw [hrld]; exact plainCmd_echo _)
      refine ⟨_, script, rfl, h1, ?_⟩
      rw [h2, hclE, hrlE]
      rfl
  · -- asm
    obtain ⟨rfl, rfl⟩ := h10
    have hr0 : pyFormat "\x7bbin\x7d" (stdMapping ++ [("args", polyArgs args)]) =
        some "\"$bin\"" := rfl
    have hclE : compilerLineOf (⟨".s", "clang -x assembler {src} -o {bin}", "\x7bbin\x7d", [], "pf_poly", true⟩ : CompileParams) = "clang -x assembler \"$src\" -o \"$bin\"" := rfl
    by_cases hA : polyArgs args = ""
    · have hrlE : runnerLineOf (⟨".s", "clang -x assembler {src} -o {bin}", "\x7bbin\x7d", [], "pf_poly", true⟩ : CompileParams) args = "\"$bin\"" := by
        simp only [runnerLineOf, hr0, Option.getD_some]
        simp [hA]
      obtain ⟨script, h1, h2⟩ := buildCompile_run ".s" code "clang -x assembler {src} -o {bin}" "\x7bbin\x7d" args [] "pf_poly" true
        "clang -x assembler \"$src\" -o \"$bin\"" "\"$bin\"" "\"$bin\"" "" [] [] oracle rfl hr0 (by simp [hA]) rfl
        (fun b => rfl) (fun st2 rest2 => ⟨st2.lastStatus, by simp⟩)
        (by decide) (by decide) (by decide) (by decide) hnf (by decide) (by decide)
        (by decide) (by decide)
      refine ⟨_, script, rfl, h1, ?_⟩
      rw [h2, hclE, hrlE]
      rfl
    · have hrlE : runnerLineOf (⟨".s", "clang -x assembler {src} -o {bin}", "\x7bbin\x7d", [], "pf_poly", true⟩ : CompileParams) args = "\"$bin\" " ++ polyArgs args := by
        simp only [runnerLineOf, hr0, Option.getD_some]
        simp [hA]
      have hrld : ("\"$bin\" " ++ polyArgs args).data =
          '"' :: ('$' :: 'b' :: 'i' :: 'n' :: '"' :: ' ' :: (polyArgs args).data) := rfl
      obtain ⟨script, h1, h2⟩ := buildCompile_run ".s" code "clang -x assembler {src} -o {bin}" "\x7bbin\x7d" args [] "pf_poly" true
        "clang -x assembler \"$src\" -o \"$bin\"" "\"$bin\"" ("\"$bin\" " ++ polyArgs args) "" [] [] oracle rfl hr0
        (by simp [hA]) rfl (fun b => rfl) (fun st2 rest2 => ⟨st2.lastStatus, by simp⟩)
        (by decide) (by decide) (by decide)
        (by rw [show ("\"$bin\" " ++ polyArgs args).data =
              "\"$bin\" ".data ++ (polyArgs args).data from rfl]
            intro hm
            rcases List.mem_append.mp hm with h | h
            · exact absurd h (by decide)
            · exact hargs h)
        hnf (by decide) (by decide)
        (by rw [hrld]; rfl)
        (by rw [hrld]; exact plainCmd_dquote _)
      refine ⟨_, script, rfl, h1, ?_⟩
      rw [h2, hclE, hrlE]
      rfl
  · -- zig
    obtain ⟨rfl, rfl⟩ := h11
    have hr0 : pyFormat "\x7bbin\x7d" (stdMapping ++ [("args", polyArgs args)]) =
        some "\"$bin\"" := rfl
    have hclE : compilerLineOf (⟨".zig", "zig build-exe -O Debug -femit-bin={bin} {src}", "\x7bbin\x7d", [], "pf_poly", true⟩ : CompileParams) = "zig build-exe -O Debug -femit-bin=\"$bin\" \"$src\"" := rfl
    by_cases hA : polyArgs args = ""
    · have hrlE : runnerLineOf (⟨".zig", "zig build-exe -O Debug -femit-bin={bin} {src}", "\x7bbin\x7d", [], "pf_poly", true⟩ : CompileParams) args = "\"$bin\"" := by
        simp only [runnerLineOf, hr0, Option.getD_some]
        simp [hA]
      obtain ⟨script, h1, h2⟩ := buildCompile_run ".zig" code "zig build-exe -O Debug -femit-bin={bin} {src}" "\x7bbin\x7d" args [] "pf_poly" true
        "zig build-exe -O Debug -femit-bin=\"$bin\" \"$src\"" "\"$bin\"" "\"$bin\"" "" [] [] oracle rfl hr0 (by simp [hA]) rfl
        (fun b => rfl) (fun st2 rest2 => ⟨st2.lastStatus, by simp⟩)
        (by decide) (by decide) (by decide) (by decide) hnf (by decide) (by decide)
        (by decide) (by decide)
      refine ⟨_, script, rfl, h1, ?_⟩
      rw [h2, hclE, hrlE]
      rfl
    · have hrlE : runnerLineOf (⟨".zig", "zig build-exe -O Debug -femit-bin={bin} {src}", "\x7bbin\x7d", [], "pf_poly", true⟩ : CompileParams) args = "\"$bin\" " ++ polyArgs args := by
        simp only [runnerLineOf, hr0, Option.getD_some]
        simp [hA]
      have hrld : ("\"$bin\" " ++ polyArgs args).data =
          '"' :: ('$' :: 'b' :: 'i' :: 'n' :: '"' :: ' ' :: (polyArgs args).data) := rfl
      obtain ⟨script, h1, h2⟩ := buildCompile_run ".zig" code "zig build-exe -O Debug -femit-bin={bin} {src}" "\x7bbin\x7d" args [] "pf_poly" true
        "zig build-exe -O Debug -femit-bin=\"$bin\" \"$src\"" "\"$bin\"" ("\"$bin\" " ++ polyArgs args) "" [] [] oracle rfl hr0
        (by simp [hA]) rfl (fun b => rfl) (fun st2 rest2 => ⟨st2.lastStatus, by simp⟩)
        (by decide) (by decide) (by decide)
        (by rw [show ("\"$bin\" " ++ polyArgs args).data =
              "\"$bin\" ".data ++ (polyArgs args).data from rfl]
            intro hm
            rcases List.mem_append.mp hm with h | h
            · exact absurd h (by decide)
            · exact hargs h)
        hnf (by decide) (by decide)
        (by rw [hrld]; rfl)
        (by rw [hrld]; exact plainCmd_dquote _)
      refine ⟨_, script, rfl, h1, ?_⟩
      rw [h2, hclE, hrlE]
      rfl
  · -- nim
    obtain ⟨rfl, rfl⟩ := h12
    have hr0 : pyFormat "\x7bbin\x7d" (stdMapping ++ [("args", polyArgs args)]) =
        some "\"$bin\"" := rfl
    have hclE : compilerLineOf (⟨".nim", "nim c -o:{bin} {src}", "\x7bbin\x7d", [], "pf_poly", true⟩ : CompileParams) = "nim c -o:\"$bin\" \"$src\"" := rfl
    by_cases hA : polyArgs args = ""
    · have hrlE : runnerLineOf (⟨".nim", "nim c -o:{bin} {src}", "\x7bbin\x7d", [], "pf_poly", true⟩ : CompileParams) args = "\"$bin\"" := by
        simp only [runnerLineOf, hr0, Option.getD_some]
        simp [hA]
      obtain ⟨script, h1, h2⟩ := buildCompile_run ".nim" code "nim c -o:{bin} {src}" "\x7bbin\x7d" args [] "pf_poly" true
        "nim c -o:\"$bin\" \"$src\"" "\"$bin\"" "\"$bin\"" "" [] [] oracle rfl hr0 (by simp [hA]) rfl
        (fun b => rfl) (fun st2 rest2 => ⟨st2.lastStatus, by simp⟩)
        (by decide) (by decide) (by decide) (by decide) hnf (by decide) (by decide)
        (by decide) (by decide)
      refine ⟨_, script, rfl, h1, ?_⟩
      rw [h2, hclE, hrlE]
      rfl
    · have hrlE : runnerLineOf (⟨".nim", "nim c -o:{bin} {src}", "\x7bbin\x7d", [], "pf_poly", true⟩ : CompileParams) args = "\"$bin\" " ++ polyArgs args := by
        simp only [runnerLineOf, hr0, Option.getD_some]
        simp [hA]
      have hrld : ("\"$bin\" " ++ polyArgs args).data =
          '"' :: ('$' :: 'b' :: 'i' :: 'n' :: '"' :: ' ' :: (polyArgs args).data) := rfl
      obtain ⟨script, h1, h2⟩ := buildCompile_run ".nim" code "nim c -o:{bin} {src}" "\x7bbin\x7d" args [] "pf_poly" true
        "nim c -o:\"$bin\" \"$src\"" "\"$bin\"" ("\"$bin\" " ++ polyArgs args) "" [] [] oracle rfl hr0
        (by simp [hA]) rfl (fun b => rfl) (fun st2 rest2 => ⟨st2.lastStatus, by simp⟩)
        (by decide) (by decide) (by decide)
        (by rw [show ("\"$bin\" " ++ polyArgs args).data =
              "\"$bin\" ".data ++ (polyArgs args).data from rfl]
            intro hm
            rcases List.mem_append.mp hm with h | h
            · exact absurd h (by decide)
            · exact hargs h)
        hnf (by decide) (by decide)
        (by rw [hrld]; rfl)
        (by rw [hrld]; exact plainCmd_dquote _)
      refine ⟨_, script, rfl, h1, ?_⟩
      rw [h2, hclE, hrlE]
      rfl
  · -- crystal
    obtain ⟨rfl, rfl⟩ := h13
    have hr0 : pyFormat "\x7bbin\x7d" (stdMapping ++ [("args", polyArgs args)]) =
        some "\"$bin\"" := rfl
    have hclE : compilerLineOf (⟨".cr", "crystal build -o {bin} {src}", "\x7bbin\x7d", [], "pf_poly", true⟩ : CompileParams) = "crystal build -o \"$bin\" \"$src\"" := rfl
    by_cases hA : polyArgs args = ""
    · have hrlE : runnerLineOf (⟨".cr", "crystal build -o {bin} {src}", "\x7bbin\x7d", [], "pf_poly", true⟩ : CompileParams) args = "\"$bin\"" := by
        simp only [runnerLineOf, hr0, Option.getD_some]
        simp [hA]
      obtain ⟨script, h1, h2⟩ := buildCompile_run ".cr" code "crystal build -o {bin} {src}" "\x7bbin\x7d" args [] "pf_poly" true
        "crystal build -o \"$bin\" \"$src\"" "\"$bin\"" "\"$bin\"" "" [] [] oracle rfl hr0 (by simp [hA]) rfl
        (fun b => rfl) (fun st2 rest2 => ⟨st2.lastStatus, by simp⟩)
        (by decide) (by decide) (by decide) (by decide) hnf (by decide) (by decide)
        (by decide) (by decide)
      refine ⟨_, script, rfl, h1, ?_⟩
      rw [h2, hclE, hrlE]
      rfl
    · have hrlE : runnerLineOf (⟨".cr", "crystal build -o {bin} {src}", "\x7bbin\x7d", [], "pf_poly", true⟩ : CompileParams) args = "\"$bin\" " ++ polyArgs args := by
        simp only [runnerLineOf, hr0, Option.getD_some]
        simp [hA]
      have hrld : ("\"$bin\" " ++ polyArgs args).data =
          '"' :: ('$' :: 'b' :: 'i' :: 'n' :: '"' :: ' ' :: (polyArgs args).data) := rfl
      obtain ⟨script, h1, h2⟩ := buildCompile_run ".cr" code "crystal build -o {bin} {src}" "\x7bbin\x7d" args [] "pf_poly" true
        "crystal build -o \"$bin\" \"$src\"" "\"$bin\"" ("\"$bin\" " ++ polyArgs args) "" [] [] oracle rfl hr0
        (by simp [hA]) rfl (fun b => rfl) (fun st2 rest2 => ⟨st2.lastStatus, by simp⟩)
        (by decide) (by decide) (by decide)
        (by rw [show ("\"$bin\" " ++ polyArgs args).data =
              "\"$bin\" ".data ++ (polyArgs args).data from rfl]
            intro hm
            rcases List.mem_append.mp hm with h | h
            · exact absurd h (by decide)
            · exact hargs h)
        hnf (by decide) (by decide)
        (by rw [hrld]; rfl)
        (by rw [hrld]; exact plainCmd_dquote _)
      refine ⟨_, script, rfl, h1, ?_⟩
      rw [h2, hclE, hrlE]
      rfl
  · -- haskell-compile
    obtain ⟨rfl, rfl⟩ := h14
    have hr0 : pyFormat "\x7bbin\x7d" (stdMapping ++ [("args", polyArgs args)]) =
        some "\"$bin\"" := rfl
    have hclE : compilerLineOf (⟨".hs", "ghc -o {bin} {src}", "\x7bbin\x7d", [], "pf_poly", true⟩ : CompileParams) = "ghc -o \"$bin\" \"$src\"" := rfl
    by_cases hA : polyArgs args = ""
    · have hrlE : runnerLineOf (⟨".hs", "ghc -o {bin} {src}", "\x7bbin\x7d", [], "pf_poly", true⟩ : CompileParams) args = "\"$bin\"" := by
        simp only [runnerLineOf, hr0, Option.getD_some]
        simp [hA]
      obtain ⟨script, h1, h2⟩ := buildCompile_run ".hs" code "ghc -o {bin} {src}" "\x7bbin\x7d" args [] "pf_poly" true
        "ghc -o \"$bin\" \"$src\"" "\"$bin\"" "\"$bin\"" "" [] [] oracle rfl hr0 (by simp [hA]) rfl
        (fun b => rfl) (fun st2 rest2 => ⟨st2.lastStatus, by simp⟩)
        (by decide) (by decide) (by decide) (by decide) hnf (by decide) (by decide)
        (by decide) (by decide)
      refine ⟨_, script, rfl, h1, ?_⟩
      rw [h2, hclE, hrlE]
      rfl
    · have hrlE : runnerLineOf (⟨".hs", "ghc -o {bin} {src}", "\x7bbin\x7d", [], "pf_poly", true⟩ : CompileParams) args = "\"$bin\" " ++ polyArgs args := by
        simp only [runnerLineOf, hr0, Option.getD_some]
        simp [hA]
      have hrld : ("\"$bin\" " ++ polyArgs args).data =
          '"' :: ('$' :: 'b' :: 'i' :: 'n' :: '"' :: ' ' :: (polyArgs args).data) := rfl
      obtain ⟨script, h1, h2⟩ := buildCompile_run ".hs" code "ghc -o {bin} {src}" "\x7bbin\x7d" args [] "pf_poly" true
        "ghc -o \"$bin\" \"$src\"" "\"$bin\"" ("\"$bin\" " ++ polyArgs args) "" [] [] oracle rfl hr0
        (by simp [hA]) rfl (fun b => rfl) (fun st2 rest2 => ⟨st2.lastStatus, by simp⟩)
        (by decide) (by decide) (by decide)
        (by rw [show ("\"$bin\" " ++ polyArgs args).data =
              "\"$bin\" ".data ++ (polyArgs args).data from rfl]
            intro hm
            rcases List.mem_append.mp hm with h | h
            · exact absurd h (by decide)
            · exact hargs h)
        hnf (by decide) (by decide)
        (by rw [hrld]; rfl)
        (by rw [hrld]; exact plainCmd_dquote _)
      refine ⟨_, script, rfl, h1, ?_⟩
      rw [h2, hclE, hrlE]
      rfl
  · -- ocamlc
    obtain ⟨rfl, rfl⟩ := h15
    have hr0 : pyFormat "\x7bbin\x7d" (stdMapping ++ [("args", polyArgs args)]) =
        some "\"$bin\"" := rfl
    have hclE : compilerLineOf (⟨".ml", "ocamlc -o {bin} {src}", "\x7bbin\x7d", [], "pf_poly", true⟩ : CompileParams) = "ocamlc -o \"$bin\" \"$src\"" := rfl
    by_cases hA : polyArgs args = ""
    · have hrlE : runnerLineOf (⟨".ml", "ocamlc -o {bin} {src}", "\x7bbin\x7d", [], "pf_poly", true⟩ : CompileParams) args = "\"$bin\"" := by
        simp only [runnerLineOf, hr0, Option.getD_some]
        simp [hA]
      obtain ⟨script, h1, h2⟩ := buildCompile_run ".ml" code "ocamlc -o {bin} {src}" "\x7bbin\x7d" args [] "pf_poly" true
        "ocamlc -o \"$bin\" \"$src\"" "\"$bin\"" "\"$bin\"" "" [] [] oracle rfl hr0 (by simp [hA]) rfl
        (fun b => rfl) (fun st2 rest2 => ⟨st2.lastStatus, by simp⟩)
        (by decide) (by decide) (by decide) (by decide) hnf (by decide) (by decide)
        (by decide) (by decide)
      refine ⟨_, script, rfl, h1, ?_⟩
      rw [h2, hclE, hrlE]
      rfl
    · have hrlE : runnerLineOf (⟨".ml", "ocamlc -o {bin} {src}", "\x7bbin\x7d", [], "pf_poly", true⟩ : CompileParams) args = "\"$bin\" " ++ polyArgs args := by
        simp only [runnerLineOf, hr0, Option.getD_some]
        simp [hA]
      have hrld : ("\"$bin\" " ++ polyArgs args).data =
          '"' :: ('$' :: 'b' :: 'i' :: 'n' :: '"' :: ' ' :: (polyArgs args).data) := rfl
      obtain ⟨script, h1, h2⟩ := buildCompile_run ".ml" code "ocamlc -o {bin} {src}" "\x7bbin\x7d" args [] "pf_poly" true
        "ocamlc -o \"$bin\" \"$src\"" "\"$bin\"" ("\"$bin\" " ++ polyArgs args) "" [] [] oracle rfl hr0
        (by simp [hA]) rfl (fun b => rfl) (fun st2 rest2 => ⟨st2.lastStatus, by simp⟩)
        (by decide) (by decide) (by decide)
        (by rw [show ("\"$bin\" " ++ polyArgs args).data =
              "\"$bin\" ".data ++ (polyArgs args).data from rfl]
            intro hm
            rcases List.mem_append.mp hm with h | h
            · exact absurd h (by decide)
            · exact hargs h)
        hnf (by decide) (by decide)
        (by rw [hrld]; rfl)
        (by rw [hrld]; exact plainCmd_dquote _)
      refine ⟨_, script, rfl, h1, ?_⟩
      rw [h2, hclE, hrlE]
      rfl
  · -- java-openjdk
    obtain ⟨rfl, rfl⟩ := h16
    have hr0 : pyFormat "(cd {classes} && java Main{args})" (stdMapping ++ [("args", polyArgs args)]) =
        some ("(cd \"$classes\" && java Main" ++ polyArgs args ++ ")") := rfl
    have hclE : compilerLineOf (⟨".java", "javac -d {classes} {src}", "(cd {classes} && java Main{args})", ["classes=\"$tmpdir/classes\"", "mkdir -p \"$classes\""], "Main", false⟩ : CompileParams) = "javac -d \"$classes\" \"$src\"" := rfl
    have hrlE : runnerLineOf (⟨".java", "javac -d {classes} {src}", "(cd {classes} && java Main{args})", ["classes=\"$tmpdir/classes\"", "mkdir -p \"$classes\""], "Main", false⟩ : CompileParams) args = ("(cd \"$classes\" && java Main" ++ polyArgs args ++ ")") := by
      simp only [runnerLineOf, hr0, Option.getD_some]
      simp
    have hrld : ("(cd \"$classes\" && java Main" ++ polyArgs args ++ ")").data =
        '(' :: ("cd \"$classes\" && java Main".data ++ ((polyArgs args).data ++ ")".data)) := rfl
    obtain ⟨script, h1, h2⟩ := buildCompile_run ".java" code "javac -d {classes} {src}" "(cd {classes} && java Main{args})" args ["classes=\"$tmpdir/classes\"", "mkdir -p \"$classes\""] "Main" false
      "javac -d \"$classes\" \"$src\"" ("(cd \"$classes\" && java Main" ++ polyArgs args ++ ")") ("(cd \"$classes\" && java Main" ++ polyArgs args ++ ")")
      "classes=\"$tmpdir/classes\"
mkdir -p \"$classes\"
"
      ["classes=\"$tmpdir/classes\"".data, "mkdir -p \"$classes\"".data]
      ["mkdir -p \"$classes\"".data]
      oracle rfl hr0 (by simp) (by decide)
      (by intro b
          rw [show ("classes=\"$tmpdir/classes\"
mkdir -p \"$classes\"
" : String).data ++ b =
            "classes=\"$tmpdir/classes\"".data ++ '\n' :: ("mkdir -p \"$classes\"".data ++ '\n' :: b) from rfl]
          rw [splitNl_append_newline _ _ (by decide), splitNl_append_newline _ _ (by decide)]
          rfl)
      (fun st2 rest2 => ⟨oracle "mkdir -p \"$classes\"".data, rfl⟩)
      (by decide) (by decide) (by decide)
      (by rw [show ("(cd \"$classes\" && java Main" ++ polyArgs args ++ ")").data =
            "(cd \"$classes\" && java Main".data ++ ((polyArgs args).data ++ ")".data) from rfl]
          intro hm
          rcases List.mem_append.mp hm with h | h
          · exact absurd h (by decide)
          · rcases List.mem_append.mp h with h2 | h2
            · exact hargs h2
            · exact absurd h2 (by decide))
      hnf (by decide) (by decide)
      (by rw [hrld]; rfl)
      (by rw [hrld]; exact plainCmd_lparen _)
    refine ⟨_, script, rfl, h1, ?_⟩
    rw [h2, hclE, hrlE]
    rfl

theorem c5_witness :
    ("rust", (⟨".rs", "rustc {src} -o {bin}", "{bin}", [], "pf_poly", true⟩ : CompileParams)) ∈
        compiledProfileEntries ∧
    NoFence "fn main()" ∧ ('\n' : Char) ∉ (polyArgs ["a b"]).data ∧
    (∃ b script, dlookup POLYGLOT_LANGS "rust" = some b ∧
      b "fn main()" ["a b"] = some script ∧
      runScript (fun _ => (0 : Int)) script =
        ⟨if (0 : Int) = 0
            then (0 : Int)
            else (0 : Int), true,
          setupCmdsOf ([] : List String) ++
            (["rustc \"$src\" -o \"$bin\"".data] ++
              (if (0 : Int) = 0 then ["\"$bin\" 'a b'".data] else [])),
          [stagedLinesOf "fn main()"]⟩) :=
  ⟨List.Mem.head _, by unfold NoFence; decide, by decide,
    c5_compile_profile "rust" ⟨".rs", "rustc {src} -o {bin}", "{bin}", [], "pf_poly", true⟩
      (List.Mem.head _) "fn main()" ["a b"] (fun _ => (0 : Int))
      (by unfold NoFence; decide) (by decide)⟩

end PfRunner
